import Mathlib

/-! payroll-mgmt: submission handlers and the payroll engine over an explicit store

A shallow embedding of `internal/handlers/handlers.go`, `internal/models/models.go`,
`pkg/utils/utils.go` and the login path of `internal/services/auth.go`, and a model
of the payroll computation engine that follows its specification.

* A handler is a function from the decoded request, the request context and the
  store to a response and the next store.
* The store holds the tables as lists of rows, and a log of the statements that
  were sent to it, so that "no write was issued" is a statement about the log.
* `float64` request fields are embedded as the exact rational value of the float
  (a JSON number never decodes to NaN or an infinity), which is all that the
  comparisons of the handlers look at.
-/

namespace Payroll

/-! ## time.Time, as far as the handlers use it -/

/-- An instant: seconds since 1970-01-01T00:00:00Z and nanoseconds within the second. -/
structure Time where
  sec : Int
  nsec : Nat
  deriving DecidableEq, Repr

/-- The method `Time.Before`: strictly earlier instant. -/
def Time.Before (t u : Time) : Bool :=
  decide (t.sec < u.sec ∨ (t.sec = u.sec ∧ t.nsec < u.nsec))

/-- The method `Time.Weekday` of a UTC time, Sunday = 0 up to Saturday = 6
(1970-01-01 was a Thursday). -/
def Time.Weekday (t : Time) : Nat :=
  ((t.sec / 86400 + 4) % 7).toNat

def Sunday : Nat := 0

def Saturday : Nat := 6

def isDigit (c : Char) : Bool :=
  decide (48 ≤ c.toNat ∧ c.toNat ≤ 57)

def digitVal (c : Char) : Nat :=
  c.toNat - 48

def isLeap (year : Nat) : Bool :=
  decide (year % 4 = 0 ∧ (year % 100 ≠ 0 ∨ year % 400 = 0))

/-- Number of days of a month (1 to 12) in a year. -/
def daysIn (month year : Nat) : Nat :=
  if month = 2 then (if isLeap year then 29 else 28)
  else if month = 4 ∨ month = 6 ∨ month = 9 ∨ month = 11 then 30
  else 31

/-- Days from 1970-01-01 to the given date of the proleptic Gregorian calendar. -/
def daysFromCivil (year month day : Nat) : Int :=
  let y : Int := if month ≤ 2 then (year : Int) - 1 else (year : Int)
  let era : Int := y / 400
  let yoe : Int := y - era * 400
  let mp : Int := if month ≤ 2 then (month : Int) + 9 else (month : Int) - 3
  let doy : Int := (153 * mp + 2) / 5 + (day : Int) - 1
  let doe : Int := yoe * 365 + yoe / 4 - yoe / 100 + doy
  era * 146097 + doe - 719468

/-- The call `time.Parse("2006-01-02", s)`: four digits of year, a dash, two digits
of month, a dash, two digits of day, nothing else; month and day in range. The
result is midnight UTC of that date; `none` stands for the error result. -/
def timeParse (s : String) : Option Time :=
  match s.toList with
  | [y1, y2, y3, y4, s1, m1, m2, s2, d1, d2] =>
    if isDigit y1 ∧ isDigit y2 ∧ isDigit y3 ∧ isDigit y4 ∧ s1 = '-' ∧
        isDigit m1 ∧ isDigit m2 ∧ s2 = '-' ∧ isDigit d1 ∧ isDigit d2 then
      let year := digitVal y1 * 1000 + digitVal y2 * 100 + digitVal y3 * 10 + digitVal y4
      let month := digitVal m1 * 10 + digitVal m2
      let day := digitVal d1 * 10 + digitVal d2
      if 1 ≤ month ∧ month ≤ 12 ∧ 1 ≤ day ∧ day ≤ daysIn month year then
        some ⟨daysFromCivil year month day * 86400, 0⟩
      else none
    else none
  | _ => none

/-- The function `utils.IsWeekend`. -/
def IsWeekend (date : Time) : Bool :=
  let weekday := date.Weekday
  weekday == Saturday || weekday == Sunday

/-! ## Identifiers and the library functions outside the repository -/

/-- The type `uuid.UUID`, by its 128-bit value. -/
structure UUID where
  val : Nat
  deriving DecidableEq, Repr

/-- The claims a token is signed over (`models.Claims` of the handlers, `Claims` of
the auth service): user id, username, role, and the registered claims that are
set, the expiry and the issue instant. -/
structure Claims where
  UserID : UUID
  Username : String
  Role : String
  ExpiresAt : Time
  IssuedAt : Time
  deriving DecidableEq, Repr

/-- Library functions that the handlers call and whose code is not part of the
repository: `uuid.Parse` (`none` is its error result), bcrypt's
`CompareHashAndPassword` (true when it returns no error; arguments in the order
password, hash) and the HS256 signature `token.SignedString` under a secret
(`none` is its error result). -/
structure Lib where
  uuidParse : String → Option UUID
  checkPassword : String → String → Bool
  signedString : List Nat → Claims → Option String

/-! ## internal/models/models.go -/

structure User where
  ID : UUID
  Username : String
  PasswordHash : String
  Role : String
  Salary : Option ℚ
  IsActive : Bool
  CreatedAt : Time
  UpdatedAt : Time
  CreatedBy : Option UUID
  UpdatedBy : Option UUID
  deriving DecidableEq

structure AttendancePeriod where
  ID : UUID
  Name : String
  StartDate : Time
  EndDate : Time
  IsActive : Bool
  PayrollProcessed : Bool
  PayrollProcessedAt : Option Time
  CreatedAt : Time
  UpdatedAt : Time
  CreatedBy : UUID
  UpdatedBy : Option UUID
  deriving DecidableEq

structure Attendance where
  ID : UUID
  UserID : UUID
  AttendancePeriodID : UUID
  AttendanceDate : Time
  CheckInTime : Option Time
  CheckOutTime : Option Time
  IsPresent : Bool
  IPAddress : String
  CreatedAt : Time
  UpdatedAt : Time
  CreatedBy : UUID
  UpdatedBy : Option UUID
  deriving DecidableEq

structure Overtime where
  ID : UUID
  UserID : UUID
  AttendancePeriodID : UUID
  OvertimeDate : Time
  HoursWorked : ℚ
  Description : String
  IPAddress : String
  CreatedAt : Time
  UpdatedAt : Time
  CreatedBy : UUID
  UpdatedBy : Option UUID
  deriving DecidableEq

structure Reimbursement where
  ID : UUID
  UserID : UUID
  AttendancePeriodID : UUID
  Amount : ℚ
  Description : String
  ReceiptURL : String
  Status : String
  IPAddress : String
  CreatedAt : Time
  UpdatedAt : Time
  CreatedBy : UUID
  UpdatedBy : Option UUID
  deriving DecidableEq

structure LoginRequest where
  Username : String
  Password : String
  deriving DecidableEq

structure CreateAttendancePeriodRequest where
  Name : String
  StartDate : String
  EndDate : String
  deriving DecidableEq

structure SubmitAttendanceRequest where
  AttendancePeriodID : String
  AttendanceDate : String
  deriving DecidableEq

structure SubmitOvertimeRequest where
  AttendancePeriodID : String
  OvertimeDate : String
  HoursWorked : ℚ
  Description : String
  deriving DecidableEq

structure SubmitReimbursementRequest where
  AttendancePeriodID : String
  Amount : ℚ
  Description : String
  ReceiptURL : String
  deriving DecidableEq

structure LoginResponse where
  Token : String
  User : User
  deriving DecidableEq

/-! ## encoding/json of the models, by their struct tags -/

inductive JSON where
  | bool (b : Bool)
  | number (x : ℚ)
  | string (s : String)
  | uuid (u : UUID)
  | time (t : Time)
  | object (fields : List (String × JSON))

/-- A field that is always written. -/
def jsonField (key : String) (v : JSON) : List (String × JSON) :=
  [(key, v)]

/-- A pointer field tagged `omitempty`: left out when nil. -/
def jsonOmitNil {α : Type} (key : String) (v : Option α) (enc : α → JSON) :
    List (String × JSON) :=
  match v with
  | none => []
  | some x => [(key, enc x)]

/-- A string field tagged `omitempty`: left out when empty. -/
def jsonOmitEmpty (key : String) (s : String) : List (String × JSON) :=
  if s = "" then [] else [(key, JSON.string s)]

/-- The encoding of `models.User`; `PasswordHash` carries the tag `json:"-"`. -/
def User.toJSON (u : User) : JSON :=
  JSON.object (
    jsonField "id" (JSON.uuid u.ID) ++
    jsonField "username" (JSON.string u.Username) ++
    jsonField "role" (JSON.string u.Role) ++
    jsonOmitNil "salary" u.Salary JSON.number ++
    jsonField "is_active" (JSON.bool u.IsActive) ++
    jsonField "created_at" (JSON.time u.CreatedAt) ++
    jsonField "updated_at" (JSON.time u.UpdatedAt) ++
    jsonOmitNil "created_by" u.CreatedBy JSON.uuid ++
    jsonOmitNil "updated_by" u.UpdatedBy JSON.uuid)

def LoginResponse.toJSON (r : LoginResponse) : JSON :=
  JSON.object (
    jsonField "token" (JSON.string r.Token) ++
    jsonField "user" r.User.toJSON)

def AttendancePeriod.toJSON (p : AttendancePeriod) : JSON :=
  JSON.object (
    jsonField "id" (JSON.uuid p.ID) ++
    jsonField "name" (JSON.string p.Name) ++
    jsonField "start_date" (JSON.time p.StartDate) ++
    jsonField "end_date" (JSON.time p.EndDate) ++
    jsonField "is_active" (JSON.bool p.IsActive) ++
    jsonField "payroll_processed" (JSON.bool p.PayrollProcessed) ++
    jsonOmitNil "payroll_processed_at" p.PayrollProcessedAt JSON.time ++
    jsonField "created_at" (JSON.time p.CreatedAt) ++
    jsonField "updated_at" (JSON.time p.UpdatedAt) ++
    jsonField "created_by" (JSON.uuid p.CreatedBy) ++
    jsonOmitNil "updated_by" p.UpdatedBy JSON.uuid)

def Attendance.toJSON (a : Attendance) : JSON :=
  JSON.object (
    jsonField "id" (JSON.uuid a.ID) ++
    jsonField "user_id" (JSON.uuid a.UserID) ++
    jsonField "attendance_period_id" (JSON.uuid a.AttendancePeriodID) ++
    jsonField "attendance_date" (JSON.time a.AttendanceDate) ++
    jsonOmitNil "check_in_time" a.CheckInTime JSON.time ++
    jsonOmitNil "check_out_time" a.CheckOutTime JSON.time ++
    jsonField "is_present" (JSON.bool a.IsPresent) ++
    jsonOmitEmpty "ip_address" a.IPAddress ++
    jsonField "created_at" (JSON.time a.CreatedAt) ++
    jsonField "updated_at" (JSON.time a.UpdatedAt) ++
    jsonField "created_by" (JSON.uuid a.CreatedBy) ++
    jsonOmitNil "updated_by" a.UpdatedBy JSON.uuid)

def Overtime.toJSON (o : Overtime) : JSON :=
  JSON.object (
    jsonField "id" (JSON.uuid o.ID) ++
    jsonField "user_id" (JSON.uuid o.UserID) ++
    jsonField "attendance_period_id" (JSON.uuid o.AttendancePeriodID) ++
    jsonField "overtime_date" (JSON.time o.OvertimeDate) ++
    jsonField "hours_worked" (JSON.number o.HoursWorked) ++
    jsonOmitEmpty "description" o.Description ++
    jsonOmitEmpty "ip_address" o.IPAddress ++
    jsonField "created_at" (JSON.time o.CreatedAt) ++
    jsonField "updated_at" (JSON.time o.UpdatedAt) ++
    jsonField "created_by" (JSON.uuid o.CreatedBy) ++
    jsonOmitNil "updated_by" o.UpdatedBy JSON.uuid)

def Reimbursement.toJSON (x : Reimbursement) : JSON :=
  JSON.object (
    jsonField "id" (JSON.uuid x.ID) ++
    jsonField "user_id" (JSON.uuid x.UserID) ++
    jsonField "attendance_period_id" (JSON.uuid x.AttendancePeriodID) ++
    jsonField "amount" (JSON.number x.Amount) ++
    jsonField "description" (JSON.string x.Description) ++
    jsonOmitEmpty "receipt_url" x.ReceiptURL ++
    jsonField "status" (JSON.string x.Status) ++
    jsonOmitEmpty "ip_address" x.IPAddress ++
    jsonField "created_at" (JSON.time x.CreatedAt) ++
    jsonField "updated_at" (JSON.time x.UpdatedAt) ++
    jsonField "created_by" (JSON.uuid x.CreatedBy) ++
    jsonOmitNil "updated_by" x.UpdatedBy JSON.uuid)

/-- The keys of a JSON object (no keys for a value that is not an object). -/
def JSON.keys : JSON → List String
  | JSON.object fields => fields.map Prod.fst
  | _ => []

/-! ## The request and pkg/utils/utils.go -/

/-- The function `validHeaderFieldByte` of net/textproto: the token characters. -/
def validHeaderFieldByte (c : Char) : Bool :=
  let n := c.toNat
  decide ((48 ≤ n ∧ n ≤ 57) ∨ (65 ≤ n ∧ n ≤ 90) ∨ (97 ≤ n ∧ n ≤ 122)) ||
    [33, 35, 36, 37, 38, 39, 42, 43, 45, 46, 94, 95, 96, 124, 126].contains n

def canonicalChars (upper : Bool) : List Char → List Char
  | [] => []
  | c :: cs => (if upper then c.toUpper else c.toLower) :: canonicalChars (c == '-') cs

/-- The function `textproto.CanonicalMIMEHeaderKey`: a key of token characters gets
an upper-case letter first and after each dash and lower-case letters elsewhere,
any other key is returned as it is. -/
def CanonicalMIMEHeaderKey (s : String) : String :=
  if s.toList.all validHeaderFieldByte then String.mk (canonicalChars true s.toList) else s

/-- The type `http.Header`: the values of each header, under its canonical key. -/
abbrev Header := List (String × List String)

/-- The method `Header.Get`: the first value under the canonical form of the key,
the empty string when there is none. -/
def Header.Get (h : Header) (key : String) : String :=
  match h.lookup (CanonicalMIMEHeaderKey key) with
  | some (v :: _) => v
  | _ => ""

/-- What the handlers read of `*http.Request` besides the body: the headers, the
remote address and the `user_id` value that the authentication middleware put
in the request context. -/
structure Request where
  Header : Header
  RemoteAddr : String
  user_id : UUID

/-- The function `utils.GetClientIP`. -/
def GetClientIP (r : Request) : String :=
  let ip := r.Header.Get "X-Forwarded-For"
  if ip ≠ "" then ip
  else
    let ip := r.Header.Get "X-Real-IP"
    if ip ≠ "" then ip
    else r.RemoteAddr

/-! ## The store -/

/-- The statements the handlers send, with their arguments in the order of the
placeholders. -/
inductive Statement where
  | selectUser (username : String)
  | insertPeriod (name : String) (startDate endDate : Time) (createdBy : UUID)
  | upsertAttendance (userID periodID : UUID) (date now : Time) (ip : String)
      (createdBy : UUID)
  | upsertOvertime (userID periodID : UUID) (date : Time) (hours : ℚ)
      (description ip : String) (createdBy : UUID)
  | insertReimbursement (userID periodID : UUID) (amount : ℚ)
      (description receiptURL ip : String) (createdBy : UUID)
  deriving DecidableEq

/-- The tables, and the statements received so far (most recent last). -/
structure Store where
  users : List User
  attendance_periods : List AttendancePeriod
  attendances : List Attendance
  overtimes : List Overtime
  reimbursements : List Reimbursement
  statements : List Statement
  deriving DecidableEq

def Store.empty : Store :=
  ⟨[], [], [], [], [], []⟩

/-- What the database contributes to one statement. The declarations of the tables
are not part of the sources, so whether a statement is accepted (`ok`: the
connection is up and no constraint of the declarations rejects the row) and the
values of the columns that the statement leaves to their defaults are inputs:
`id` for the generated id, `timestamp` for CURRENT_TIMESTAMP and for the defaults
of created_at and updated_at, `isActive` for the default of
attendance_periods.is_active. A statement that is not accepted changes no
table. -/
structure DbReply where
  ok : Bool
  id : UUID
  timestamp : Time
  isActive : Bool

/-- Modelled from the spec: the default of the column attendance_periods.payroll_processed
(the declaration of the table is missing from the sources); `create` "returns the
new period with `processed=false`". -/
def payrollProcessedDefault : Bool := false

/-- Modelled from the spec: the default of the column attendances.is_present (the
declaration of the table is missing from the sources); the "first submission of
the day records `checkIn = now`, `isPresent = true`". -/
def isPresentDefault : Bool := true

/-- Modelled from the spec: the default of the column reimbursements.status (the
declaration of the table is missing from the sources); a submission "always
inserts a new record with `status = pending`". -/
def statusDefault : String := "pending"

/-- The environment of one call of a handler: the clock read by `time.Now()` and
the reply of the database to the statement of the call. -/
structure Env where
  now : Time
  db : DbReply

def Store.record (st : Store) (q : Statement) : Store :=
  { st with statements := st.statements ++ [q] }

/-! ## Responses -/

/-- The body of a response: the text written by `http.Error`, the value written
by `json.NewEncoder(w).Encode`, and what `response.Error` and `response.JSON`
(package pkg/response, not part of the sources) write for a message and for the
encoding of a value. -/
inductive Body where
  | text (msg : String)
  | json (v : JSON)
  | pkgError (msg : String)
  | pkgJSON (v : JSON)

structure Response where
  code : Nat
  body : Body

def StatusOK : Nat := 200

def StatusBadRequest : Nat := 400

def StatusUnauthorized : Nat := 401

def StatusInternalServerError : Nat := 500

/-- The call `http.Error(w, msg, code)`. -/
def httpError (msg : String) (code : Nat) : Response :=
  ⟨code, Body.text msg⟩

/-- Encoding a value without a call of `WriteHeader`: status 200. -/
def encodeOK (v : JSON) : Response :=
  ⟨StatusOK, Body.json v⟩

/-! ## The statements of internal/handlers/handlers.go

Each function sends one statement: it records it, and, when the database accepts
it, changes the table and returns the row as the handler scans it from the
RETURNING clause. A column that the statement does not name and for which no
default is known (check_out_time, payroll_processed_at, updated_by) is NULL. -/

/-- The user query of the login: `WHERE username = $1 AND is_active = true`. -/
def queryUser (db : DbReply) (username : String) (st : Store) : Option User × Store :=
  let st1 := st.record (Statement.selectUser username)
  if db.ok then
    (st.users.find? (fun u => decide (u.Username = username) && u.IsActive), st1)
  else (none, st1)

/-- The statement `INSERT INTO attendance_periods (name, start_date, end_date, created_by)`. -/
def insertPeriod (db : DbReply) (name : String) (startDate endDate : Time)
    (createdBy : UUID) (st : Store) : Option AttendancePeriod × Store :=
  let st1 := st.record (Statement.insertPeriod name startDate endDate createdBy)
  if db.ok then
    let row : AttendancePeriod :=
      { ID := db.id, Name := name, StartDate := startDate, EndDate := endDate,
        IsActive := db.isActive, PayrollProcessed := payrollProcessedDefault,
        PayrollProcessedAt := none, CreatedAt := db.timestamp,
        UpdatedAt := db.timestamp, CreatedBy := createdBy, UpdatedBy := none }
    (some row, { st1 with attendance_periods := st1.attendance_periods ++ [row] })
  else (none, st1)

/-- The rows of attendances after `INSERT ... ON CONFLICT (user_id, attendance_date)
DO UPDATE SET check_out_time = $4, updated_at = CURRENT_TIMESTAMP, updated_by = $6`,
with the row that was inserted or updated. -/
def upsertAttendanceRows (db : DbReply) (userID periodID : UUID) (date now : Time)
    (ip : String) (createdBy : UUID) : List Attendance → Attendance × List Attendance
  | [] =>
    let row : Attendance :=
      { ID := db.id, UserID := userID, AttendancePeriodID := periodID,
        AttendanceDate := date, CheckInTime := some now, CheckOutTime := none,
        IsPresent := isPresentDefault, IPAddress := ip, CreatedAt := db.timestamp,
        UpdatedAt := db.timestamp, CreatedBy := createdBy, UpdatedBy := none }
    (row, [row])
  | a :: rest =>
    if a.UserID = userID ∧ a.AttendanceDate = date then
      let row : Attendance :=
        { a with CheckOutTime := some now, UpdatedAt := db.timestamp,
                 UpdatedBy := some createdBy }
      (row, row :: rest)
    else
      ((upsertAttendanceRows db userID periodID date now ip createdBy rest).1,
        a :: (upsertAttendanceRows db userID periodID date now ip createdBy rest).2)

/-- The attendance statement; the RETURNING clause does not name updated_by, so
the scanned row has none. -/
def upsertAttendance (db : DbReply) (userID periodID : UUID) (date now : Time)
    (ip : String) (createdBy : UUID) (st : Store) : Option Attendance × Store :=
  let st1 := st.record (Statement.upsertAttendance userID periodID date now ip createdBy)
  if db.ok then
    let res := upsertAttendanceRows db userID periodID date now ip createdBy st1.attendances
    (some { res.1 with UpdatedBy := none }, { st1 with attendances := res.2 })
  else (none, st1)

/-- The rows of overtimes after `INSERT ... ON CONFLICT (user_id, overtime_date)
DO UPDATE SET hours_worked = $4, description = $5, updated_at = CURRENT_TIMESTAMP,
updated_by = $7`, with the row that was inserted or updated. -/
def upsertOvertimeRows (db : DbReply) (userID periodID : UUID) (date : Time)
    (hours : ℚ) (description ip : String) (createdBy : UUID) :
    List Overtime → Overtime × List Overtime
  | [] =>
    let row : Overtime :=
      { ID := db.id, UserID := userID, AttendancePeriodID := periodID,
        OvertimeDate := date, HoursWorked := hours, Description := description,
        IPAddress := ip, CreatedAt := db.timestamp, UpdatedAt := db.timestamp,
        CreatedBy := createdBy, UpdatedBy := none }
    (row, [row])
  | o :: rest =>
    if o.UserID = userID ∧ o.OvertimeDate = date then
      let row : Overtime :=
        { o with HoursWorked := hours, Description := description,
                 UpdatedAt := db.timestamp, UpdatedBy := some createdBy }
      (row, row :: rest)
    else
      ((upsertOvertimeRows db userID periodID date hours description ip createdBy rest).1,
        o :: (upsertOvertimeRows db userID periodID date hours description ip createdBy rest).2)

/-- The overtime statement; the RETURNING clause does not name updated_by. -/
def upsertOvertime (db : DbReply) (userID periodID : UUID) (date : Time) (hours : ℚ)
    (description ip : String) (createdBy : UUID) (st : Store) : Option Overtime × Store :=
  let st1 := st.record
    (Statement.upsertOvertime userID periodID date hours description ip createdBy)
  if db.ok then
    let res := upsertOvertimeRows db userID periodID date hours description ip createdBy
      st1.overtimes
    (some { res.1 with UpdatedBy := none }, { st1 with overtimes := res.2 })
  else (none, st1)

/-- The statement `INSERT INTO reimbursements (user_id, attendance_period_id, amount,
description, receipt_url, ip_address, created_by)`. -/
def insertReimbursement (db : DbReply) (userID periodID : UUID) (amount : ℚ)
    (description receiptURL ip : String) (createdBy : UUID) (st : Store) :
    Option Reimbursement × Store :=
  let st1 := st.record
    (Statement.insertReimbursement userID periodID amount description receiptURL ip createdBy)
  if db.ok then
    let row : Reimbursement :=
      { ID := db.id, UserID := userID, AttendancePeriodID := periodID, Amount := amount,
        Description := description, ReceiptURL := receiptURL, Status := statusDefault,
        IPAddress := ip, CreatedAt := db.timestamp, UpdatedAt := db.timestamp,
        CreatedBy := createdBy, UpdatedBy := none }
    (some row, { st1 with reimbursements := st1.reimbursements ++ [row] })
  else (none, st1)

/-! ## internal/handlers/handlers.go

The body argument of a handler is the result of decoding the request body into
the request type; `none` stands for a body that does not decode. -/

/-- The struct `App`; its pool is the store that the handlers are given. -/
structure App where
  JWTSecret : List Nat

/-- The sum `t.Add(24 * time.Hour)`. -/
def Time.AddDay (t : Time) : Time :=
  ⟨t.sec + 86400, t.nsec⟩

def App.LoginHandler (app : App) (lib : Lib) (env : Env) (body : Option LoginRequest)
    (st : Store) : Response × Store :=
  match body with
  | none => (httpError "Invalid request body" StatusBadRequest, st)
  | some req =>
    match queryUser env.db req.Username st with
    | (none, st1) => (httpError "Invalid credentials" StatusUnauthorized, st1)
    | (some row, st1) =>
      -- the query does not select created_by and updated_by
      let user : User := { row with CreatedBy := none, UpdatedBy := none }
      if !lib.checkPassword req.Password user.PasswordHash then
        (httpError "Invalid credentials" StatusUnauthorized, st1)
      else
        let claims : Claims :=
          { UserID := user.ID, Username := user.Username, Role := user.Role,
            ExpiresAt := env.now.AddDay, IssuedAt := env.now }
        match lib.signedString app.JWTSecret claims with
        | none => (httpError "Failed to generate token" StatusInternalServerError, st1)
        | some tokenString =>
          let response : LoginResponse := { Token := tokenString, User := user }
          (encodeOK response.toJSON, st1)

def App.CreateAttendancePeriodHandler (env : Env) (r : Request)
    (body : Option CreateAttendancePeriodRequest) (st : Store) : Response × Store :=
  match body with
  | none => (httpError "Invalid request body" StatusBadRequest, st)
  | some req =>
    match timeParse req.StartDate with
    | none => (httpError "Invalid start date format" StatusBadRequest, st)
    | some startDate =>
      match timeParse req.EndDate with
      | none => (httpError "Invalid end date format" StatusBadRequest, st)
      | some endDate =>
        if endDate.Before startDate then
          (httpError "End date must be after start date" StatusBadRequest, st)
        else
          let userID := r.user_id
          match insertPeriod env.db req.Name startDate endDate userID st with
          | (none, st1) =>
            (httpError "Failed to create attendance period" StatusInternalServerError, st1)
          | (some period, st1) => (encodeOK period.toJSON, st1)

def App.SubmitAttendanceHandler (lib : Lib) (env : Env) (r : Request)
    (body : Option SubmitAttendanceRequest) (st : Store) : Response × Store :=
  match body with
  | none => (httpError "Invalid request body" StatusBadRequest, st)
  | some req =>
    match timeParse req.AttendanceDate with
    | none => (httpError "Invalid attendance date format" StatusBadRequest, st)
    | some attendanceDate =>
      if IsWeekend attendanceDate then
        (httpError "Cannot submit attendance on weekends" StatusBadRequest, st)
      else
        match lib.uuidParse req.AttendancePeriodID with
        | none => (httpError "Invalid attendance period ID" StatusBadRequest, st)
        | some periodID =>
          let userID := r.user_id
          let ipAddress := GetClientIP r
          let now := env.now
          match upsertAttendance env.db userID periodID attendanceDate now ipAddress userID st with
          | (none, st1) =>
            (httpError "Failed to submit attendance" StatusInternalServerError, st1)
          | (some attendance, st1) => (encodeOK attendance.toJSON, st1)

def App.SubmitOvertimeHandler (lib : Lib) (env : Env) (r : Request)
    (body : Option SubmitOvertimeRequest) (st : Store) : Response × Store :=
  match body with
  | none => (httpError "Invalid request body" StatusBadRequest, st)
  | some req =>
    if req.HoursWorked ≤ 0 ∨ req.HoursWorked > 3 then
      (httpError "Overtime hours must be between 0 and 3" StatusBadRequest, st)
    else
      match timeParse req.OvertimeDate with
      | none => (httpError "Invalid overtime date format" StatusBadRequest, st)
      | some overtimeDate =>
        match lib.uuidParse req.AttendancePeriodID with
        | none => (httpError "Invalid attendance period ID" StatusBadRequest, st)
        | some periodID =>
          let userID := r.user_id
          let ipAddress := GetClientIP r
          match upsertOvertime env.db userID periodID overtimeDate req.HoursWorked
              req.Description ipAddress userID st with
          | (none, st1) =>
            (httpError "Failed to submit overtime" StatusInternalServerError, st1)
          | (some overtime, st1) => (encodeOK overtime.toJSON, st1)

def App.SubmitReimbursementHandler (lib : Lib) (env : Env) (r : Request)
    (body : Option SubmitReimbursementRequest) (st : Store) : Response × Store :=
  match body with
  | none => (httpError "Invalid request body" StatusBadRequest, st)
  | some req =>
    if req.Amount ≤ 0 then
      (httpError "Amount must be positive" StatusBadRequest, st)
    else if req.Description = "" then
      (httpError "Description is required" StatusBadRequest, st)
    else
      match lib.uuidParse req.AttendancePeriodID with
      | none => (httpError "Invalid attendance period ID" StatusBadRequest, st)
      | some periodID =>
        let userID := r.user_id
        let ipAddress := GetClientIP r
        match insertReimbursement env.db userID periodID req.Amount req.Description
            req.ReceiptURL ipAddress userID st with
        | (none, st1) =>
          (httpError "Failed to submit reimbursement" StatusInternalServerError, st1)
        | (some reimbursement, st1) => (encodeOK reimbursement.toJSON, st1)

/-! ## internal/services/auth.go, internal/repository/postgres/user.go and
internal/handlers/auth.go -/

structure AppError where
  Message : String
  Code : Nat
  deriving DecidableEq

def NewAppError (message : String) (code : Nat) : AppError :=
  { Message := message, Code := code }

def ErrInvalidCredentials : AppError :=
  NewAppError "invalid credentials" 401

def ErrInvalidToken : AppError :=
  NewAppError "invalid token" 401

/-- A Go error value as the login handler tells them apart: an `*AppError`, or an
error of any other type (of the database driver, of the token library). -/
inductive GoError where
  | app (e : AppError)
  | other
  deriving DecidableEq

/-- The method `userRepository.GetByUsername`: the row of the active user of that
name, all columns scanned; the error of `Scan` (no row, or a failed query) is
returned as it is. -/
def userRepository.GetByUsername (db : DbReply) (username : String) (st : Store) :
    Except GoError User × Store :=
  match queryUser db username st with
  | (none, st1) => (Except.error GoError.other, st1)
  | (some user, st1) => (Except.ok user, st1)

structure AuthService where
  jwtSecret : List Nat

def AuthService.checkPassword (lib : Lib) (password hash : String) : Bool :=
  lib.checkPassword password hash

def AuthService.generateToken (s : AuthService) (lib : Lib) (env : Env) (user : User) :
    Except GoError String :=
  let claims : Claims :=
    { UserID := user.ID, Username := user.Username, Role := user.Role,
      ExpiresAt := env.now.AddDay, IssuedAt := env.now }
  match lib.signedString s.jwtSecret claims with
  | none => Except.error GoError.other
  | some token => Except.ok token

def AuthService.Login (s : AuthService) (lib : Lib) (env : Env) (username password : String)
    (st : Store) : Except GoError LoginResponse × Store :=
  match userRepository.GetByUsername env.db username st with
  | (Except.error err, st1) => (Except.error err, st1)
  | (Except.ok user, st1) =>
    if !AuthService.checkPassword lib password user.PasswordHash then
      (Except.error (GoError.app ErrInvalidCredentials), st1)
    else
      match s.generateToken lib env user with
      | Except.error err => (Except.error err, st1)
      | Except.ok token => (Except.ok { Token := token, User := user }, st1)

/-- The call `response.Error(w, msg, code)` of pkg/response, whose code is not part
of the sources: the status is the code given, the body is what the package writes
for the message. -/
def responseError (msg : String) (code : Nat) : Response :=
  ⟨code, Body.pkgError msg⟩

/-- The call `response.JSON(w, data, code)` of pkg/response, whose code is not part
of the sources: the status is the code given, the body is what the package writes
for the encoding of the data. -/
def responseJSON (data : JSON) (code : Nat) : Response :=
  ⟨code, Body.pkgJSON data⟩

structure AuthHandler where
  authService : AuthService

def AuthHandler.Login (h : AuthHandler) (lib : Lib) (env : Env) (body : Option LoginRequest)
    (st : Store) : Response × Store :=
  match body with
  | none => (responseError "Invalid request body" StatusBadRequest, st)
  | some req =>
    if req.Username = "" ∨ req.Password = "" then
      (responseError "Username and password are required" StatusBadRequest, st)
    else
      match h.authService.Login lib env req.Username req.Password st with
      | (Except.error (GoError.app appErr), st1) =>
        (responseError appErr.Message appErr.Code, st1)
      | (Except.error GoError.other, st1) =>
        (responseError "Internal server error" StatusInternalServerError, st1)
      | (Except.ok loginResp, st1) => (responseJSON loginResp.toJSON StatusOK, st1)

/-! ## The payroll computation engine

No code of the engine is part of the sources (`main` only constructs
`services.NewPayrollService`); the definitions of this section follow the
specification of the engine, sections 3, 4.1 and 4.5. -/

/-- Modelled from the spec: the entity PayrollResult of the data model,
"(employeeId, periodId, presentDays, workingDays, proratedBase, overtimePay,
reimbursementTotal, totalPay, computedAt)". -/
structure PayrollResult where
  employeeId : UUID
  periodId : UUID
  presentDays : Nat
  workingDays : Nat
  proratedBase : ℚ
  overtimePay : ℚ
  reimbursementTotal : ℚ
  totalPay : ℚ
  computedAt : Time
  deriving DecidableEq

/-- Modelled from the spec: the durable store of the engine, the tables of the
ledgers and periods together with the persisted payroll results. -/
structure Ledger where
  store : Store
  payroll_results : List PayrollResult
  deriving DecidableEq

/-- Modelled from the spec: the configuration passed to the engine; the
"hourlyOvertimeRate is a configured constant derived from the employee's base
salary", the derivation being the parameter. -/
structure PayrollConfig where
  hourlyOvertimeRate : ℚ → ℚ

/-- Modelled from the spec: the error kinds of `computeAndClose`, and the
storage failure of section 7. -/
inductive PayrollError where
  | AlreadyProcessed
  | PeriodNotFound
  | StorageFailure
  deriving DecidableEq

/-- Modelled from the spec: the working-day set `W`, "all non-weekend calendar
dates in `[P.start, P.end]`", as the list of their midnights in order. -/
def workingDaySet (startDate endDate : Time) : List Time :=
  ((List.range ((endDate.sec - startDate.sec) / 86400 + 1).toNat).map
    (fun i => (⟨startDate.sec + 86400 * (i : Int), 0⟩ : Time))).filter
    (fun d => !IsWeekend d)

/-- Modelled from the spec: step 1, "count of that employee's AttendanceRecords
in `P` with `isPresent = true`". -/
def presentDays (st : Store) (employee period : UUID) : Nat :=
  (st.attendances.filter (fun a =>
    decide (a.UserID = employee ∧ a.AttendancePeriodID = period) && a.IsPresent)).length

/-- Modelled from the spec: step 2, "`employee.baseSalary * presentDays / |W|`". -/
def proratedBase (baseSalary : ℚ) (present working : Nat) : ℚ :=
  baseSalary * (present : ℚ) / (working : ℚ)

/-- Modelled from the spec: step 3, "`sum(overtime.hoursWorked) *
hourlyOvertimeRate`" over the overtime records of the employee in the period. -/
def overtimePay (cfg : PayrollConfig) (st : Store) (employee period : UUID)
    (baseSalary : ℚ) : ℚ :=
  ((st.overtimes.filter (fun o =>
    decide (o.UserID = employee ∧ o.AttendancePeriodID = period))).map
      (fun o => o.HoursWorked)).sum * cfg.hourlyOvertimeRate baseSalary

/-- Modelled from the spec: step 4, "`sum(amount)` over that employee's
ReimbursementRecords in `P` with `status = approved` only". -/
def reimbursementTotal (st : Store) (employee period : UUID) : ℚ :=
  ((st.reimbursements.filter (fun x =>
    decide (x.UserID = employee ∧ x.AttendancePeriodID = period ∧ x.Status = "approved"))).map
      (fun x => x.Amount)).sum

/-- Modelled from the spec: step 5, the rounding "to currency precision (2 decimal
places, round-half-up)". -/
def roundCurrency (x : ℚ) : ℚ :=
  ((Rat.floor (x * 100 + 1 / 2) : Int) : ℚ) / 100

/-- Modelled from the spec: steps 1 to 5 for one employee; "`baseSalary` absent
⇒ employee is skipped (no payout record, not an error)". -/
def computeResult (cfg : PayrollConfig) (now : Time) (st : Store) (P : AttendancePeriod)
    (employee : User) : Option PayrollResult :=
  match employee.Salary with
  | none => none
  | some baseSalary =>
    let present := presentDays st employee.ID P.ID
    let working := (workingDaySet P.StartDate P.EndDate).length
    let base := proratedBase baseSalary present working
    let overtime := overtimePay cfg st employee.ID P.ID baseSalary
    let reimbursed := reimbursementTotal st employee.ID P.ID
    some { employeeId := employee.ID, periodId := P.ID, presentDays := present,
           workingDays := working, proratedBase := base, overtimePay := overtime,
           reimbursementTotal := reimbursed,
           totalPay := roundCurrency (base + overtime + reimbursed), computedAt := now }

/-- Modelled from the spec: the results of a period, one for "each active
employee" that has a base salary. -/
def computeResults (cfg : PayrollConfig) (now : Time) (st : Store) (P : AttendancePeriod) :
    List PayrollResult :=
  (st.users.filter (fun u => u.IsActive)).filterMap (computeResult cfg now st P)

/-- Modelled from the spec: `get(id)` of the period registry, `none` for its
NotFound. -/
def getPeriod (st : Store) (id : UUID) : Option AttendancePeriod :=
  st.attendance_periods.find? (fun p => decide (p.ID = id))

/-- Modelled from the spec: the write of `markProcessed(id, actor)`, "the only
mutator of the `processed`/`processedAt` fields"; the record also takes the
update timestamp and the acting user. -/
def markProcessed (st : Store) (id actor : UUID) (now : Time) : Store :=
  { st with attendance_periods := st.attendance_periods.map (fun p =>
      if p.ID = id then
        { p with PayrollProcessed := true, PayrollProcessedAt := some now,
                 UpdatedAt := now, UpdatedBy := some actor }
      else p) }

/-- Modelled from the spec: `Payroll.computeAndClose(periodId)`. An absent period
is PeriodNotFound; a period already closed is AlreadyProcessed, "request is
rejected, no recomputation"; otherwise the results of all employees and the flip
of the period to processed "commit in one atomic unit", and when the store cannot
complete the commit (`storageOk` false) nothing is kept and the caller sees
StorageFailure. -/
def computeAndClose (cfg : PayrollConfig) (now : Time) (storageOk : Bool)
    (actor periodId : UUID) (l : Ledger) : Except PayrollError (List PayrollResult) × Ledger :=
  match getPeriod l.store periodId with
  | none => (Except.error PayrollError.PeriodNotFound, l)
  | some P =>
    if P.PayrollProcessed then (Except.error PayrollError.AlreadyProcessed, l)
    else
      let results := computeResults cfg now l.store P
      if storageOk then
        (Except.ok results,
          { store := markProcessed l.store periodId actor now,
            payroll_results := l.payroll_results ++ results })
      else (Except.error PayrollError.StorageFailure, l)

/-! ## The upsert keys -/

/-- The conflict target of the attendance statement: (user_id, attendance_date). -/
def Attendance.key (a : Attendance) : UUID × Time :=
  (a.UserID, a.AttendanceDate)

/-- The conflict target of the overtime statement: (user_id, overtime_date). -/
def Overtime.key (o : Overtime) : UUID × Time :=
  (o.UserID, o.OvertimeDate)

/-! ## Sequences of submissions -/

/-- One call of a ledger handler with everything it is given. -/
inductive Submission where
  | attendance (env : Env) (r : Request) (body : Option SubmitAttendanceRequest)
  | overtime (env : Env) (r : Request) (body : Option SubmitOvertimeRequest)

/-- The store after one submission. -/
def Submission.apply (lib : Lib) (s : Submission) (st : Store) : Store :=
  match s with
  | Submission.attendance env r body => (App.SubmitAttendanceHandler lib env r body st).2
  | Submission.overtime env r body => (App.SubmitOvertimeHandler lib env r body st).2

/-- The store after a sequence of submissions, handled one after the other. -/
def runSubmissions (lib : Lib) (subs : List Submission) (st : Store) : Store :=
  subs.foldl (fun acc s => s.apply lib acc) st

/-- The store with the password hash of every user replaced. -/
def rehash (f : User → String) (st : Store) : Store :=
  { st with users := st.users.map (fun u => { u with PasswordHash := f u }) }

/-! ## Concrete inputs on which the statements are evaluated -/

def employee1 : UUID := ⟨1⟩

def admin1 : UUID := ⟨2⟩

def period1 : UUID := ⟨100⟩

/-- A stand-in for the library: one period id is well formed, a password matches
the two hashes that spell it after one of two salts, a token is the username. -/
def sampleLib : Lib :=
  { uuidParse := fun s =>
      if s = "00000000-0000-0000-0000-000000000064" then some period1 else none,
    checkPassword := fun password hash =>
      decide (hash = "a$" ++ password ∨ hash = "b$" ++ password),
    signedString := fun _ claims => some claims.Username }

def sampleRequest : Request :=
  { Header := [], RemoteAddr := "10.0.0.7:51234", user_id := employee1 }

def morning : Time := ⟨1704697200, 0⟩

def evening : Time := ⟨1704733200, 0⟩

def sampleEnv : Env :=
  { now := morning, db := { ok := true, id := ⟨500⟩, timestamp := morning, isActive := true } }

def sampleEnvLater : Env :=
  { now := evening, db := { ok := true, id := ⟨501⟩, timestamp := evening, isActive := true } }

/-- A store whose only period, January 2024, is already processed. -/
def processedStore : Store :=
  { Store.empty with
    attendance_periods :=
      [{ ID := period1, Name := "2024-01", StartDate := ⟨1704067200, 0⟩,
         EndDate := ⟨1706659200, 0⟩, IsActive := true, PayrollProcessed := true,
         PayrollProcessedAt := some ⟨1706745600, 0⟩, CreatedAt := ⟨1704067200, 0⟩,
         UpdatedAt := ⟨1706745600, 0⟩, CreatedBy := admin1, UpdatedBy := some admin1 }] }

/-- A store whose only period, January 2024, is open. -/
def januaryStore : Store :=
  { Store.empty with
    attendance_periods :=
      [{ ID := period1, Name := "2024-01", StartDate := ⟨1704067200, 0⟩,
         EndDate := ⟨1706659200, 0⟩, IsActive := true, PayrollProcessed := false,
         PayrollProcessedAt := none, CreatedAt := ⟨1704067200, 0⟩,
         UpdatedAt := ⟨1704067200, 0⟩, CreatedBy := admin1, UpdatedBy := none }] }

def periodText : String := "00000000-0000-0000-0000-000000000064"

def monday : Time := ⟨1704672000, 0⟩

def mondayAttendance : SubmitAttendanceRequest :=
  ⟨periodText, "2024-01-08"⟩

def mondayOvertime (hours : ℚ) (description : String) : SubmitOvertimeRequest :=
  ⟨periodText, "2024-01-08", hours, description⟩

/-- A double punch and a double overtime claim on one day, by one employee. -/
def sampleDay : List Submission :=
  [Submission.attendance sampleEnv sampleRequest (some mondayAttendance),
   Submission.overtime sampleEnv sampleRequest (some (mondayOvertime 2 "release")),
   Submission.attendance sampleEnvLater sampleRequest (some mondayAttendance),
   Submission.overtime sampleEnvLater sampleRequest (some (mondayOvertime (3 / 2) "hotfix"))]

/-- A store with one active employee. -/
def aliceStore : Store :=
  { Store.empty with
    users :=
      [{ ID := employee1, Username := "alice", PasswordHash := "a$secret",
         Role := "employee", Salary := some 2000000, IsActive := true,
         CreatedAt := ⟨1704067200, 0⟩, UpdatedAt := ⟨1704067200, 0⟩,
         CreatedBy := some admin1, UpdatedBy := none }] }

def aliceLogin : LoginRequest :=
  ⟨"alice", "secret"⟩

def sampleApp : App :=
  ⟨[115, 51, 99, 114, 51, 116]⟩

def sampleAuthHandler : AuthHandler :=
  ⟨⟨[115, 51, 99, 114, 51, 116]⟩⟩

/-- A period of four weeks, 2024-01-01 to 2024-01-26, open. -/
def fourWeeks : AttendancePeriod :=
  { ID := period1, Name := "2024-01", StartDate := ⟨1704067200, 0⟩,
    EndDate := ⟨1706227200, 0⟩, IsActive := true, PayrollProcessed := false,
    PayrollProcessedAt := none, CreatedAt := ⟨1704067200, 0⟩,
    UpdatedAt := ⟨1704067200, 0⟩, CreatedBy := admin1, UpdatedBy := none }

/-- The attendance record of the first employee for a day of that period. -/
def punch (d : Time) : Attendance :=
  { ID := ⟨d.sec.toNat⟩, UserID := employee1, AttendancePeriodID := period1,
    AttendanceDate := d, CheckInTime := some d, CheckOutTime := none, IsPresent := true,
    IPAddress := "10.0.0.7:51234", CreatedAt := d, UpdatedAt := d, CreatedBy := employee1,
    UpdatedBy := none }

/-- One employee with a base salary of 2,000,000, present on the first 18 of the
20 working days of the period. -/
def payrollLedger : Ledger :=
  { store :=
      { aliceStore with
        attendance_periods := [fourWeeks],
        attendances :=
          ((workingDaySet fourWeeks.StartDate fourWeeks.EndDate).take 18).map punch },
    payroll_results := [] }

def sampleConfig : PayrollConfig :=
  { hourlyOvertimeRate := fun baseSalary => baseSalary / 160 }

def monthEnd : Time := ⟨1706745600, 0⟩

/-- The user record of the employee of the sample ledger. -/
def alice : User :=
  { ID := employee1, Username := "alice", PasswordHash := "a$secret",
    Role := "employee", Salary := some 2000000, IsActive := true,
    CreatedAt := ⟨1704067200, 0⟩, UpdatedAt := ⟨1704067200, 0⟩,
    CreatedBy := some admin1, UpdatedBy := none }

def period2 : UUID := ⟨101⟩

def period2Text : String := "00000000-0000-0000-0000-000000000065"

/-- A stand-in for the library in which two period ids are well formed. -/
def sampleLibTwo : Lib :=
  { sampleLib with
    uuidParse := fun s =>
      if s = periodText then some period1
      else if s = period2Text then some period2 else none }

/-- A request of the first employee that arrives through a proxy. -/
def proxiedRequest : Request :=
  { Header := [("X-Forwarded-For", ["203.0.113.9"]), ("X-Real-Ip", ["198.51.100.4"])],
    RemoteAddr := "10.0.0.8:40000", user_id := employee1 }

/-- The overtime record of the first employee for Monday 2024-01-08. -/
def mondayClaim : Overtime :=
  { ID := ⟨700⟩, UserID := employee1, AttendancePeriodID := period1, OvertimeDate := monday,
    HoursWorked := 2, Description := "release", IPAddress := "10.0.0.7:51234",
    CreatedAt := morning, UpdatedAt := morning, CreatedBy := employee1, UpdatedBy := none }

/-- A store in which the first employee has punched in and claimed overtime on
Monday 2024-01-08. -/
def punchedStore : Store :=
  { Store.empty with attendances := [punch monday], overtimes := [mondayClaim] }

/-- A request whose X-Forwarded-For header is present and empty. -/
def emptyForwardedRequest : Request :=
  { Header := [("X-Forwarded-For", [""]), ("X-Real-Ip", ["198.51.100.4"])],
    RemoteAddr := "10.0.0.8:40000", user_id := employee1 }

/-! ## Theorems -/

theorem Time.Before_self (t : Time) : t.Before t = false := by
  simp [Time.Before]

theorem record_ne (st : Store) (q : Statement) : st.record q ≠ st := by
  intro h
  have h2 := congrArg (fun s => s.statements.length) h
  simp [Store.record] at h2

theorem createPeriod_reject (env : Env) (r : Request) (req : CreateAttendancePeriodRequest)
    (st : Store) (startDate endDate : Time)
    (hs : timeParse req.StartDate = some startDate)
    (he : timeParse req.EndDate = some endDate)
    (hb : endDate.Before startDate = true) :
    App.CreateAttendancePeriodHandler env r (some req) st =
      (httpError "End date must be after start date" StatusBadRequest, st) := by
  simp [App.CreateAttendancePeriodHandler, hs, he, hb]

theorem createPeriod_pass (env : Env) (r : Request) (req : CreateAttendancePeriodRequest)
    (st : Store) (startDate endDate : Time)
    (hs : timeParse req.StartDate = some startDate)
    (he : timeParse req.EndDate = some endDate)
    (hb : endDate.Before startDate = false) :
    (App.CreateAttendancePeriodHandler env r (some req) st).1.code ≠ StatusBadRequest ∧
    (App.CreateAttendancePeriodHandler env r (some req) st).2 =
      (insertPeriod env.db req.Name startDate endDate r.user_id st).2 := by
  cases hok : env.db.ok <;>
    simp [App.CreateAttendancePeriodHandler, hs, he, hb, insertPeriod, hok,
      httpError, encodeOK, StatusBadRequest, StatusInternalServerError, StatusOK]

theorem insertPeriod_statements (db : DbReply) (name : String) (startDate endDate : Time)
    (createdBy : UUID) (st : Store) :
    (insertPeriod db name startDate endDate createdBy st).2.statements =
      st.statements ++ [Statement.insertPeriod name startDate endDate createdBy] := by
  cases hok : db.ok <;> simp [insertPeriod, hok, Store.record]

/-- C1: when both dates of a create-period request parse, the handler answers 400
exactly when the end is strictly before the start, and exactly then the store
(the log of statements included) is left as it was; otherwise the INSERT is sent,
in particular when the end date equals the start date. -/
theorem createPeriod_validation (env : Env) (r : Request)
    (req : CreateAttendancePeriodRequest) (st : Store) (startDate endDate : Time)
    (hs : timeParse req.StartDate = some startDate)
    (he : timeParse req.EndDate = some endDate) :
    ((App.CreateAttendancePeriodHandler env r (some req) st).1.code = StatusBadRequest ↔
      endDate.Before startDate = true) ∧
    ((App.CreateAttendancePeriodHandler env r (some req) st).2 = st ↔
      endDate.Before startDate = true) ∧
    (endDate.Before startDate = false →
      (App.CreateAttendancePeriodHandler env r (some req) st).2.statements =
        st.statements ++ [Statement.insertPeriod req.Name startDate endDate r.user_id]) ∧
    (req.EndDate = req.StartDate →
      (App.CreateAttendancePeriodHandler env r (some req) st).2.statements =
        st.statements ++ [Statement.insertPeriod req.Name startDate endDate r.user_id]) := by
  have key : endDate.Before startDate = false →
      (App.CreateAttendancePeriodHandler env r (some req) st).2.statements =
        st.statements ++ [Statement.insertPeriod req.Name startDate endDate r.user_id] := by
    intro hb
    rw [(createPeriod_pass env r req st startDate endDate hs he hb).2,
      insertPeriod_statements]
  cases hb : endDate.Before startDate with
  | true =>
    have h := createPeriod_reject env r req st startDate endDate hs he hb
    refine ⟨by simp [h, httpError], by simp [h], by simp, ?_⟩
    intro heq
    rw [heq, hs] at he
    cases he
    simp [Time.Before_self] at hb
  | false =>
    have h := createPeriod_pass env r req st startDate endDate hs he hb
    refine ⟨by simpa using h.1, ?_, fun _ => key hb, fun _ => key hb⟩
    constructor
    · intro hst
      have h2 := key hb
      rw [hst] at h2
      simp at h2
    · intro hf
      cases hf

/-- The instance of C1 with the end date equal to the start date. -/
theorem createPeriod_validation_witness :
    timeParse "2024-01-01" = some ⟨1704067200, 0⟩ ∧
    (App.CreateAttendancePeriodHandler sampleEnv sampleRequest
      (some ⟨"January", "2024-01-01", "2024-01-01"⟩) Store.empty).2.statements =
      [Statement.insertPeriod "January" ⟨1704067200, 0⟩ ⟨1704067200, 0⟩ employee1] :=
  ⟨by decide,
    (createPeriod_validation sampleEnv sampleRequest ⟨"January", "2024-01-01", "2024-01-01"⟩
      Store.empty ⟨1704067200, 0⟩ ⟨1704067200, 0⟩ (by decide) (by decide)).2.2.2 rfl⟩

theorem IsWeekend_iff (t : Time) :
    IsWeekend t = true ↔ t.Weekday = Saturday ∨ t.Weekday = Sunday := by
  simp [IsWeekend]

/-- C2: a request whose date parses and falls on a Saturday or a Sunday is answered
400 with the store unchanged, whatever the library makes of the period id (and so
whatever period id is given); `IsWeekend` is true exactly on those two days. -/
theorem submitAttendance_weekend (lib : Lib) (env : Env) (r : Request)
    (req : SubmitAttendanceRequest) (st : Store) (date : Time)
    (hd : timeParse req.AttendanceDate = some date)
    (hw : date.Weekday = Saturday ∨ date.Weekday = Sunday) :
    App.SubmitAttendanceHandler lib env r (some req) st =
      (httpError "Cannot submit attendance on weekends" StatusBadRequest, st) ∧
    (∀ t : Time, IsWeekend t = true ↔ t.Weekday = Saturday ∨ t.Weekday = Sunday) := by
  have h : IsWeekend date = true := (IsWeekend_iff date).2 hw
  exact ⟨by simp [App.SubmitAttendanceHandler, hd, h], IsWeekend_iff⟩

/-- The instance of C2 on Saturday 2024-01-06 with a period id that does not parse. -/
theorem submitAttendance_weekend_witness :
    (timeParse "2024-01-06" = some ⟨1704499200, 0⟩ ∧
      ((⟨1704499200, 0⟩ : Time).Weekday = Saturday ∨
        (⟨1704499200, 0⟩ : Time).Weekday = Sunday)) ∧
    App.SubmitAttendanceHandler sampleLib sampleEnv sampleRequest
        (some ⟨"not-a-uuid", "2024-01-06"⟩) Store.empty =
      (httpError "Cannot submit attendance on weekends" StatusBadRequest, Store.empty) :=
  ⟨⟨by decide, by decide⟩,
    (submitAttendance_weekend sampleLib sampleEnv sampleRequest ⟨"not-a-uuid", "2024-01-06"⟩
      Store.empty ⟨1704499200, 0⟩ (by decide) (by decide)).1⟩


theorem submitOvertime_reject (lib : Lib) (env : Env) (r : Request)
    (req : SubmitOvertimeRequest) (st : Store)
    (h : req.HoursWorked ≤ 0 ∨ req.HoursWorked > 3) :
    App.SubmitOvertimeHandler lib env r (some req) st =
      (httpError "Overtime hours must be between 0 and 3" StatusBadRequest, st) := by
  simp [App.SubmitOvertimeHandler, h]

theorem upsertOvertime_statements (db : DbReply) (userID periodID : UUID) (date : Time)
    (hours : ℚ) (description ip : String) (createdBy : UUID) (st : Store) :
    (upsertOvertime db userID periodID date hours description ip createdBy st).2.statements =
      st.statements ++
        [Statement.upsertOvertime userID periodID date hours description ip createdBy] := by
  cases hok : db.ok <;> simp [upsertOvertime, hok, Store.record]

theorem submitOvertime_pass (lib : Lib) (env : Env) (r : Request)
    (req : SubmitOvertimeRequest) (st : Store)
    (h : ¬ (req.HoursWorked ≤ 0 ∨ req.HoursWorked > 3)) :
    (App.SubmitOvertimeHandler lib env r (some req) st).1.body ≠
      Body.text "Overtime hours must be between 0 and 3" := by
  cases hd : timeParse req.OvertimeDate with
  | none => simp [App.SubmitOvertimeHandler, h, hd, httpError]
  | some date =>
    cases hp : lib.uuidParse req.AttendancePeriodID with
    | none => simp [App.SubmitOvertimeHandler, h, hd, hp, httpError]
    | some pid =>
      cases hok : env.db.ok <;>
        simp [App.SubmitOvertimeHandler, h, hd, hp, upsertOvertime, hok, httpError, encodeOK]

/-- C3: the overtime handler answers 400 with the store unchanged when the hours
are at most 0 or above 3; it gives the answer of the hours check exactly for those
hours; and for hours in (0, 3] a request whose date and period id parse has its
statement sent with these hours. -/
theorem submitOvertime_hours (lib : Lib) (env : Env) (r : Request)
    (req : SubmitOvertimeRequest) (st : Store) :
    ((req.HoursWorked ≤ 0 ∨ req.HoursWorked > 3) →
      App.SubmitOvertimeHandler lib env r (some req) st =
        (httpError "Overtime hours must be between 0 and 3" StatusBadRequest, st)) ∧
    ((App.SubmitOvertimeHandler lib env r (some req) st).1.body =
        Body.text "Overtime hours must be between 0 and 3" ↔
      ¬ (0 < req.HoursWorked ∧ req.HoursWorked ≤ 3)) ∧
    ((0 < req.HoursWorked ∧ req.HoursWorked ≤ 3) →
      ∀ date pid, timeParse req.OvertimeDate = some date →
        lib.uuidParse req.AttendancePeriodID = some pid →
        (App.SubmitOvertimeHandler lib env r (some req) st).2.statements =
          st.statements ++ [Statement.upsertOvertime r.user_id pid date req.HoursWorked
            req.Description (GetClientIP r) r.user_id]) := by
  refine ⟨submitOvertime_reject lib env r req st, ?_, ?_⟩
  · constructor
    · intro hbody hin
      have hn : ¬ (req.HoursWorked ≤ 0 ∨ req.HoursWorked > 3) := by
        rintro (h | h)
        · exact absurd hin.1 (not_lt.mpr h)
        · exact absurd hin.2 (not_le.mpr h)
      exact submitOvertime_pass lib env r req st hn hbody
    · intro hout
      have h : req.HoursWorked ≤ 0 ∨ req.HoursWorked > 3 := by
        by_cases h0 : 0 < req.HoursWorked
        · right
          exact not_le.mp (fun h3 => hout ⟨h0, h3⟩)
        · left
          exact not_lt.mp h0
      rw [submitOvertime_reject lib env r req st h]
      rfl
  · intro hin date pid hd hp
    have hn : ¬ (req.HoursWorked ≤ 0 ∨ req.HoursWorked > 3) := by
      rintro (h | h)
      · exact absurd hin.1 (not_lt.mpr h)
      · exact absurd hin.2 (not_le.mpr h)
    have : (App.SubmitOvertimeHandler lib env r (some req) st).2 =
        (upsertOvertime env.db r.user_id pid date req.HoursWorked req.Description
          (GetClientIP r) r.user_id st).2 := by
      cases hok : env.db.ok <;>
        simp [App.SubmitOvertimeHandler, hn, hd, hp, upsertOvertime, hok]
    rw [this, upsertOvertime_statements]

/-- The instances of C3 at exactly 3 hours and at 0.05 hours. -/
theorem submitOvertime_hours_witness :
    ((0 : ℚ) < 3 ∧ (3 : ℚ) ≤ 3 ∧ (0 : ℚ) < 1 / 20 ∧ (1 / 20 : ℚ) ≤ 3) ∧
    (App.SubmitOvertimeHandler sampleLib sampleEnv sampleRequest
      (some ⟨"00000000-0000-0000-0000-000000000064", "2024-01-08", 3, "release"⟩)
      Store.empty).2.statements =
      [Statement.upsertOvertime employee1 period1 ⟨1704672000, 0⟩ 3 "release"
        "10.0.0.7:51234" employee1] ∧
    (App.SubmitOvertimeHandler sampleLib sampleEnv sampleRequest
      (some ⟨"00000000-0000-0000-0000-000000000064", "2024-01-08", 1 / 20, "release"⟩)
      Store.empty).2.statements =
      [Statement.upsertOvertime employee1 period1 ⟨1704672000, 0⟩ (1 / 20) "release"
        "10.0.0.7:51234" employee1] :=
  ⟨by norm_num,
    (submitOvertime_hours sampleLib sampleEnv sampleRequest
      ⟨"00000000-0000-0000-0000-000000000064", "2024-01-08", 3, "release"⟩
      Store.empty).2.2 (by norm_num) ⟨1704672000, 0⟩ period1 (by decide) (by decide),
    (submitOvertime_hours sampleLib sampleEnv sampleRequest
      ⟨"00000000-0000-0000-0000-000000000064", "2024-01-08", 1 / 20, "release"⟩
      Store.empty).2.2 (by norm_num) ⟨1704672000, 0⟩ period1 (by decide) (by decide)⟩


theorem insertReimbursement_statements (db : DbReply) (userID periodID : UUID) (amount : ℚ)
    (description receiptURL ip : String) (createdBy : UUID) (st : Store) :
    (insertReimbursement db userID periodID amount description receiptURL ip
      createdBy st).2.statements =
      st.statements ++ [Statement.insertReimbursement userID periodID amount description
        receiptURL ip createdBy] := by
  cases hok : db.ok <;> simp [insertReimbursement, hok, Store.record]

/-- C4: the reimbursement handler answers 400 with the store unchanged when the
amount is at most 0 and when the description is empty; a request with a positive
amount, a description that is not empty and a period id that parses is not
answered 400 and has its INSERT sent. -/
theorem submitReimbursement_validation (lib : Lib) (env : Env) (r : Request)
    (req : SubmitReimbursementRequest) (st : Store) :
    (req.Amount ≤ 0 →
      App.SubmitReimbursementHandler lib env r (some req) st =
        (httpError "Amount must be positive" StatusBadRequest, st)) ∧
    (req.Description = "" →
      (App.SubmitReimbursementHandler lib env r (some req) st).1.code = StatusBadRequest ∧
      (App.SubmitReimbursementHandler lib env r (some req) st).2 = st) ∧
    (0 < req.Amount → req.Description ≠ "" →
      ∀ pid, lib.uuidParse req.AttendancePeriodID = some pid →
        (App.SubmitReimbursementHandler lib env r (some req) st).1.code ≠ StatusBadRequest ∧
        (App.SubmitReimbursementHandler lib env r (some req) st).2.statements =
          st.statements ++ [Statement.insertReimbursement r.user_id pid req.Amount
            req.Description req.ReceiptURL (GetClientIP r) r.user_id]) := by
  refine ⟨?_, ?_, ?_⟩
  · intro h
    simp [App.SubmitReimbursementHandler, h]
  · intro h
    by_cases ha : req.Amount ≤ 0
    · simp [App.SubmitReimbursementHandler, ha, httpError]
    · simp [App.SubmitReimbursementHandler, ha, h, httpError]
  · intro ha hdesc pid hp
    have hna : ¬ req.Amount ≤ 0 := not_le.mpr ha
    have hst : (App.SubmitReimbursementHandler lib env r (some req) st).2 =
        (insertReimbursement env.db r.user_id pid req.Amount req.Description
          req.ReceiptURL (GetClientIP r) r.user_id st).2 := by
      cases hok : env.db.ok <;>
        simp [App.SubmitReimbursementHandler, hna, hdesc, hp, insertReimbursement, hok]
    constructor
    · cases hok : env.db.ok <;>
        simp [App.SubmitReimbursementHandler, hna, hdesc, hp, insertReimbursement, hok,
          httpError, encodeOK, StatusBadRequest, StatusInternalServerError, StatusOK]
    · rw [hst, insertReimbursement_statements]

/-- The instances of C4: an amount of 0, an empty description, and a valid claim. -/
theorem submitReimbursement_validation_witness :
    (((0 : ℚ) ≤ 0) ∧ ((0 : ℚ) < 125000 ∧ "taxi" ≠ "")) ∧
    App.SubmitReimbursementHandler sampleLib sampleEnv sampleRequest
        (some ⟨"00000000-0000-0000-0000-000000000064", 0, "taxi", ""⟩) Store.empty =
      (httpError "Amount must be positive" StatusBadRequest, Store.empty) ∧
    (App.SubmitReimbursementHandler sampleLib sampleEnv sampleRequest
        (some ⟨"00000000-0000-0000-0000-000000000064", 125000, "", ""⟩) Store.empty).2 =
      Store.empty ∧
    (App.SubmitReimbursementHandler sampleLib sampleEnv sampleRequest
        (some ⟨"00000000-0000-0000-0000-000000000064", 125000, "taxi", ""⟩)
        Store.empty).2.statements =
      [Statement.insertReimbursement employee1 period1 125000 "taxi" "" "10.0.0.7:51234"
        employee1] :=
  ⟨⟨le_refl 0, by norm_num, by decide⟩,
    (submitReimbursement_validation sampleLib sampleEnv sampleRequest
      ⟨"00000000-0000-0000-0000-000000000064", 0, "taxi", ""⟩ Store.empty).1 (le_refl 0),
    ((submitReimbursement_validation sampleLib sampleEnv sampleRequest
      ⟨"00000000-0000-0000-0000-000000000064", 125000, "", ""⟩ Store.empty).2.1 rfl).2,
    ((submitReimbursement_validation sampleLib sampleEnv sampleRequest
      ⟨"00000000-0000-0000-0000-000000000064", 125000, "taxi", ""⟩ Store.empty).2.2
      (by norm_num) (by decide) period1 (by decide)).2⟩


/-- C5, refuted: in a store whose period is processed, an attendance, an overtime
and a reimbursement submitted against that period are each answered 200 and
written to their ledger. -/
theorem processed_period_counterexample :
    (∃ p ∈ processedStore.attendance_periods, p.ID = period1 ∧ p.PayrollProcessed = true) ∧
    sampleLib.uuidParse periodText = some period1 ∧
    (App.SubmitAttendanceHandler sampleLib sampleEnv sampleRequest
      (some ⟨periodText, "2024-01-08"⟩) processedStore).1.code = StatusOK ∧
    (App.SubmitAttendanceHandler sampleLib sampleEnv sampleRequest
      (some ⟨periodText, "2024-01-08"⟩) processedStore).2.attendances =
      [{ ID := ⟨500⟩, UserID := employee1, AttendancePeriodID := period1,
         AttendanceDate := ⟨1704672000, 0⟩, CheckInTime := some morning,
         CheckOutTime := none, IsPresent := true, IPAddress := "10.0.0.7:51234",
         CreatedAt := morning, UpdatedAt := morning, CreatedBy := employee1,
         UpdatedBy := none }] ∧
    (App.SubmitOvertimeHandler sampleLib sampleEnv sampleRequest
      (some ⟨periodText, "2024-01-08", 2, "release"⟩) processedStore).1.code = StatusOK ∧
    (App.SubmitOvertimeHandler sampleLib sampleEnv sampleRequest
      (some ⟨periodText, "2024-01-08", 2, "release"⟩) processedStore).2.overtimes.length = 1 ∧
    (App.SubmitReimbursementHandler sampleLib sampleEnv sampleRequest
      (some ⟨periodText, 125000, "taxi", ""⟩) processedStore).1.code = StatusOK ∧
    (App.SubmitReimbursementHandler sampleLib sampleEnv sampleRequest
      (some ⟨periodText, 125000, "taxi", ""⟩) processedStore).2.reimbursements.length = 1 := by
  refine ⟨⟨_, List.mem_singleton.mpr rfl, rfl, rfl⟩, by decide, by decide, by decide, ?_, ?_, ?_, ?_⟩
  · rfl
  · rfl
  · rfl
  · rfl


theorem submitAttendance_periods (lib : Lib) (env : Env) (r : Request)
    (body : Option SubmitAttendanceRequest) (st : Store) (ps : List AttendancePeriod) :
    App.SubmitAttendanceHandler lib env r body { st with attendance_periods := ps } =
      ((App.SubmitAttendanceHandler lib env r body st).1,
        { (App.SubmitAttendanceHandler lib env r body st).2 with attendance_periods := ps }) := by
  cases body with
  | none => rfl
  | some req =>
    cases hd : timeParse req.AttendanceDate with
    | none => simp [App.SubmitAttendanceHandler, hd]
    | some date =>
      cases hw : IsWeekend date with
      | true => simp [App.SubmitAttendanceHandler, hd, hw]
      | false =>
        cases hp : lib.uuidParse req.AttendancePeriodID with
        | none => simp [App.SubmitAttendanceHandler, hd, hw, hp]
        | some pid =>
          cases hok : env.db.ok <;>
            simp [App.SubmitAttendanceHandler, hd, hw, hp, upsertAttendance, hok, Store.record]

theorem submitOvertime_periods (lib : Lib) (env : Env) (r : Request)
    (body : Option SubmitOvertimeRequest) (st : Store) (ps : List AttendancePeriod) :
    App.SubmitOvertimeHandler lib env r body { st with attendance_periods := ps } =
      ((App.SubmitOvertimeHandler lib env r body st).1,
        { (App.SubmitOvertimeHandler lib env r body st).2 with attendance_periods := ps }) := by
  cases body with
  | none => rfl
  | some req =>
    by_cases hh : req.HoursWorked ≤ 0 ∨ req.HoursWorked > 3
    · simp [App.SubmitOvertimeHandler, hh]
    · cases hd : timeParse req.OvertimeDate with
      | none => simp [App.SubmitOvertimeHandler, hh, hd]
      | some date =>
        cases hp : lib.uuidParse req.AttendancePeriodID with
        | none => simp [App.SubmitOvertimeHandler, hh, hd, hp]
        | some pid =>
          cases hok : env.db.ok <;>
            simp [App.SubmitOvertimeHandler, hh, hd, hp, upsertOvertime, hok, Store.record]

theorem submitReimbursement_periods (lib : Lib) (env : Env) (r : Request)
    (body : Option SubmitReimbursementRequest) (st : Store) (ps : List AttendancePeriod) :
    App.SubmitReimbursementHandler lib env r body { st with attendance_periods := ps } =
      ((App.SubmitReimbursementHandler lib env r body st).1,
        { (App.SubmitReimbursementHandler lib env r body st).2 with
          attendance_periods := ps }) := by
  cases body with
  | none => rfl
  | some req =>
    by_cases ha : req.Amount ≤ 0
    · simp [App.SubmitReimbursementHandler, ha]
    · by_cases hdesc : req.Description = ""
      · simp [App.SubmitReimbursementHandler, ha, hdesc]
      · cases hp : lib.uuidParse req.AttendancePeriodID with
        | none => simp [App.SubmitReimbursementHandler, ha, hdesc, hp]
        | some pid =>
          cases hok : env.db.ok <;>
            simp [App.SubmitReimbursementHandler, ha, hdesc, hp, insertReimbursement, hok,
              Store.record]

/-- C5, amended: the three submission handlers do not read the table of periods.
Whatever that table holds (the referenced period processed or not), the response
is the same and the other tables and the log end up the same. -/
theorem submissions_ignore_periods (lib : Lib) (env : Env) (r : Request) (st : Store)
    (ps : List AttendancePeriod) :
    (∀ body, App.SubmitAttendanceHandler lib env r body { st with attendance_periods := ps } =
      ((App.SubmitAttendanceHandler lib env r body st).1,
        { (App.SubmitAttendanceHandler lib env r body st).2 with attendance_periods := ps })) ∧
    (∀ body, App.SubmitOvertimeHandler lib env r body { st with attendance_periods := ps } =
      ((App.SubmitOvertimeHandler lib env r body st).1,
        { (App.SubmitOvertimeHandler lib env r body st).2 with attendance_periods := ps })) ∧
    (∀ body, App.SubmitReimbursementHandler lib env r body
        { st with attendance_periods := ps } =
      ((App.SubmitReimbursementHandler lib env r body st).1,
        { (App.SubmitReimbursementHandler lib env r body st).2 with
          attendance_periods := ps })) :=
  ⟨fun body => submitAttendance_periods lib env r body st ps,
    fun body => submitOvertime_periods lib env r body st ps,
    fun body => submitReimbursement_periods lib env r body st ps⟩


/-! ### The upsert of attendances -/

theorem upsertAttendanceRows_keys (db : DbReply) (u p : UUID) (d now : Time) (ip : String)
    (c : UUID) (rows : List Attendance) :
    (upsertAttendanceRows db u p d now ip c rows).2.map Attendance.key =
      if (u, d) ∈ rows.map Attendance.key then rows.map Attendance.key
      else rows.map Attendance.key ++ [(u, d)] := by
  induction rows with
  | nil => simp [upsertAttendanceRows, Attendance.key]
  | cons a rest ih =>
    by_cases h : a.UserID = u ∧ a.AttendanceDate = d
    · have hk : a.key = (u, d) := by simp [Attendance.key, h.1, h.2]
      simp [upsertAttendanceRows, h, Attendance.key]
    · have hk : ¬ ((u, d) = a.key) := by
        intro hk
        apply h
        simp only [Attendance.key, Prod.mk.injEq] at hk
        exact ⟨hk.1.symm, hk.2.symm⟩
      simp only [upsertAttendanceRows, h, if_false, List.map_cons, ih, List.mem_cons, hk,
        false_or]
      split <;> simp

theorem upsertAttendanceRows_fresh (db : DbReply) (u p : UUID) (d now : Time) (ip : String)
    (c : UUID) (rows : List Attendance)
    (hfresh : ∀ a ∈ rows, ¬ (a.UserID = u ∧ a.AttendanceDate = d)) :
    (upsertAttendanceRows db u p d now ip c rows).2 =
      rows ++ [(upsertAttendanceRows db u p d now ip c []).1] := by
  induction rows with
  | nil => simp [upsertAttendanceRows]
  | cons a rest ih =>
    have ha := hfresh a (List.mem_cons_self a rest)
    have hr : ∀ x ∈ rest, ¬ (x.UserID = u ∧ x.AttendanceDate = d) :=
      fun x hx => hfresh x (List.mem_cons_of_mem a hx)
    simp only [upsertAttendanceRows, ha, if_false, ih hr, List.cons_append]

theorem upsertAttendanceRows_hit (db : DbReply) (u p : UUID) (d now : Time) (ip : String)
    (c : UUID) (rows : List Attendance) (a0 : Attendance)
    (hfresh : ∀ a ∈ rows, ¬ (a.UserID = u ∧ a.AttendanceDate = d))
    (h0 : a0.UserID = u ∧ a0.AttendanceDate = d) :
    (upsertAttendanceRows db u p d now ip c (rows ++ [a0])).2 =
      rows ++ [{ a0 with CheckOutTime := some now, UpdatedAt := db.timestamp,
                         UpdatedBy := some c }] := by
  induction rows with
  | nil => simp [upsertAttendanceRows, h0]
  | cons a rest ih =>
    have ha := hfresh a (List.mem_cons_self a rest)
    have hr : ∀ x ∈ rest, ¬ (x.UserID = u ∧ x.AttendanceDate = d) :=
      fun x hx => hfresh x (List.mem_cons_of_mem a hx)
    have ih2 := ih hr
    simp only [List.cons_append, upsertAttendanceRows, ha, if_false]
    exact congrArg (List.cons a) ih2

theorem submitAttendance_accepted (lib : Lib) (env : Env) (r : Request)
    (req : SubmitAttendanceRequest) (st : Store) (date : Time) (pid : UUID)
    (hd : timeParse req.AttendanceDate = some date) (hw : IsWeekend date = false)
    (hp : lib.uuidParse req.AttendancePeriodID = some pid) (hok : env.db.ok = true) :
    (App.SubmitAttendanceHandler lib env r (some req) st).1.code = StatusOK ∧
    (App.SubmitAttendanceHandler lib env r (some req) st).2.attendances =
      (upsertAttendanceRows env.db r.user_id pid date env.now (GetClientIP r) r.user_id
        st.attendances).2 := by
  simp [App.SubmitAttendanceHandler, hd, hw, hp, upsertAttendance, hok, Store.record, encodeOK]

/-- C6: from a store without a record of the employee for a working day, a first
accepted submission is answered 200 and appends one record with the check-in at
the clock of that call, present, and no check-out; a second accepted submission
of the same employee for that day (whatever period id it names) is answered 200,
adds no record, and turns that record into the same one with the check-out at the
clock of the second call and the caller as updater. -/
theorem submitAttendance_upsert (lib : Lib) (env1 env2 : Env) (r1 r2 : Request)
    (req1 req2 : SubmitAttendanceRequest) (st : Store) (date : Time) (pid1 pid2 : UUID)
    (hd1 : timeParse req1.AttendanceDate = some date)
    (hd2 : timeParse req2.AttendanceDate = some date)
    (hw : IsWeekend date = false)
    (hp1 : lib.uuidParse req1.AttendancePeriodID = some pid1)
    (hp2 : lib.uuidParse req2.AttendancePeriodID = some pid2)
    (hok1 : env1.db.ok = true) (hok2 : env2.db.ok = true)
    (hu : r2.user_id = r1.user_id)
    (hfresh : ∀ a ∈ st.attendances, ¬ (a.UserID = r1.user_id ∧ a.AttendanceDate = date)) :
    ∃ row : Attendance,
      (App.SubmitAttendanceHandler lib env1 r1 (some req1) st).1.code = StatusOK ∧
      (App.SubmitAttendanceHandler lib env1 r1 (some req1) st).2.attendances =
        st.attendances ++ [row] ∧
      row.UserID = r1.user_id ∧ row.AttendanceDate = date ∧
      row.CheckInTime = some env1.now ∧ row.IsPresent = true ∧ row.CheckOutTime = none ∧
      (App.SubmitAttendanceHandler lib env2 r2 (some req2)
        (App.SubmitAttendanceHandler lib env1 r1 (some req1) st).2).1.code = StatusOK ∧
      (App.SubmitAttendanceHandler lib env2 r2 (some req2)
        (App.SubmitAttendanceHandler lib env1 r1 (some req1) st).2).2.attendances =
        st.attendances ++ [{ row with CheckOutTime := some env2.now,
                                      UpdatedAt := env2.db.timestamp,
                                      UpdatedBy := some r2.user_id }] := by
  have h1 := submitAttendance_accepted lib env1 r1 req1 st date pid1 hd1 hw hp1 hok1
  have h2 := submitAttendance_accepted lib env2 r2 req2
    (App.SubmitAttendanceHandler lib env1 r1 (some req1) st).2 date pid2 hd2 hw hp2 hok2
  refine ⟨(upsertAttendanceRows env1.db r1.user_id pid1 date env1.now (GetClientIP r1)
    r1.user_id []).1, h1.1, ?_, rfl, rfl, rfl, rfl, rfl, h2.1, ?_⟩
  · rw [h1.2, upsertAttendanceRows_fresh _ _ _ _ _ _ _ _ hfresh]
  · rw [h2.2, h1.2, upsertAttendanceRows_fresh _ _ _ _ _ _ _ _ hfresh, hu]
    exact upsertAttendanceRows_hit _ _ _ _ _ _ _ _ _ hfresh ⟨rfl, rfl⟩

/-- The instance of C6 on Monday 2024-01-08, from the empty store. -/
theorem submitAttendance_upsert_witness :
    (timeParse mondayAttendance.AttendanceDate = some monday ∧ IsWeekend monday = false ∧
      sampleLib.uuidParse mondayAttendance.AttendancePeriodID = some period1 ∧
      sampleEnv.db.ok = true ∧ sampleEnvLater.db.ok = true) ∧
    ∃ row : Attendance,
      (App.SubmitAttendanceHandler sampleLib sampleEnv sampleRequest (some mondayAttendance)
        Store.empty).1.code = StatusOK ∧
      (App.SubmitAttendanceHandler sampleLib sampleEnv sampleRequest (some mondayAttendance)
        Store.empty).2.attendances = Store.empty.attendances ++ [row] ∧
      row.UserID = sampleRequest.user_id ∧ row.AttendanceDate = monday ∧
      row.CheckInTime = some sampleEnv.now ∧ row.IsPresent = true ∧ row.CheckOutTime = none ∧
      (App.SubmitAttendanceHandler sampleLib sampleEnvLater sampleRequest
        (some mondayAttendance)
        (App.SubmitAttendanceHandler sampleLib sampleEnv sampleRequest (some mondayAttendance)
          Store.empty).2).1.code = StatusOK ∧
      (App.SubmitAttendanceHandler sampleLib sampleEnvLater sampleRequest
        (some mondayAttendance)
        (App.SubmitAttendanceHandler sampleLib sampleEnv sampleRequest (some mondayAttendance)
          Store.empty).2).2.attendances =
        Store.empty.attendances ++ [{ row with CheckOutTime := some sampleEnvLater.now,
                                               UpdatedAt := sampleEnvLater.db.timestamp,
                                               UpdatedBy := some sampleRequest.user_id }] :=
  ⟨⟨by decide, by decide, by decide, rfl, rfl⟩,
    submitAttendance_upsert sampleLib sampleEnv sampleEnvLater sampleRequest sampleRequest
      mondayAttendance mondayAttendance Store.empty monday period1 period1
      (by decide) (by decide) (by decide) (by decide) (by decide) rfl rfl rfl
      (by simp [Store.empty])⟩


/-! ### The upsert of overtimes -/

theorem upsertOvertimeRows_keys (db : DbReply) (u p : UUID) (d : Time) (hours : ℚ)
    (desc ip : String) (c : UUID) (rows : List Overtime) :
    (upsertOvertimeRows db u p d hours desc ip c rows).2.map Overtime.key =
      if (u, d) ∈ rows.map Overtime.key then rows.map Overtime.key
      else rows.map Overtime.key ++ [(u, d)] := by
  induction rows with
  | nil => simp [upsertOvertimeRows, Overtime.key]
  | cons a rest ih =>
    by_cases h : a.UserID = u ∧ a.OvertimeDate = d
    · have hk : a.key = (u, d) := by simp [Overtime.key, h.1, h.2]
      simp [upsertOvertimeRows, h, Overtime.key]
    · have hk : ¬ ((u, d) = a.key) := by
        intro hk
        apply h
        simp only [Overtime.key, Prod.mk.injEq] at hk
        exact ⟨hk.1.symm, hk.2.symm⟩
      simp only [upsertOvertimeRows, h, if_false, List.map_cons, ih, List.mem_cons, hk,
        false_or]
      split <;> simp

theorem upsertOvertimeRows_returned (db : DbReply) (u p : UUID) (d : Time) (hours : ℚ)
    (desc ip : String) (c : UUID) (rows : List Overtime) :
    (upsertOvertimeRows db u p d hours desc ip c rows).1 ∈
      (upsertOvertimeRows db u p d hours desc ip c rows).2 ∧
    (upsertOvertimeRows db u p d hours desc ip c rows).1.key = (u, d) ∧
    (upsertOvertimeRows db u p d hours desc ip c rows).1.HoursWorked = hours ∧
    (upsertOvertimeRows db u p d hours desc ip c rows).1.Description = desc := by
  induction rows with
  | nil => simp [upsertOvertimeRows, Overtime.key]
  | cons a rest ih =>
    by_cases h : a.UserID = u ∧ a.OvertimeDate = d
    · simp [upsertOvertimeRows, h, Overtime.key]
    · simp only [upsertOvertimeRows, h, if_false]
      exact ⟨List.mem_cons_of_mem a ih.1, ih.2⟩

theorem upsertOvertimeRows_nodup (db : DbReply) (u p : UUID) (d : Time) (hours : ℚ)
    (desc ip : String) (c : UUID) (rows : List Overtime)
    (h : (rows.map Overtime.key).Nodup) :
    ((upsertOvertimeRows db u p d hours desc ip c rows).2.map Overtime.key).Nodup := by
  rw [upsertOvertimeRows_keys]
  split
  · exact h
  · rename_i hn
    exact List.Nodup.append h (List.nodup_singleton _)
      (by simpa [List.Disjoint] using hn)

theorem upsertAttendanceRows_nodup (db : DbReply) (u p : UUID) (d now : Time) (ip : String)
    (c : UUID) (rows : List Attendance)
    (h : (rows.map Attendance.key).Nodup) :
    ((upsertAttendanceRows db u p d now ip c rows).2.map Attendance.key).Nodup := by
  rw [upsertAttendanceRows_keys]
  split
  · exact h
  · rename_i hn
    exact List.Nodup.append h (List.nodup_singleton _)
      (by simpa [List.Disjoint] using hn)

theorem submitOvertime_accepted (lib : Lib) (env : Env) (r : Request)
    (req : SubmitOvertimeRequest) (st : Store) (date : Time) (pid : UUID)
    (hh : 0 < req.HoursWorked ∧ req.HoursWorked ≤ 3)
    (hd : timeParse req.OvertimeDate = some date)
    (hp : lib.uuidParse req.AttendancePeriodID = some pid) (hok : env.db.ok = true) :
    (App.SubmitOvertimeHandler lib env r (some req) st).1.code = StatusOK ∧
    (App.SubmitOvertimeHandler lib env r (some req) st).2.overtimes =
      (upsertOvertimeRows env.db r.user_id pid date req.HoursWorked req.Description
        (GetClientIP r) r.user_id st.overtimes).2 := by
  have hn : ¬ (req.HoursWorked ≤ 0 ∨ req.HoursWorked > 3) := by
    rintro (h | h)
    · exact absurd hh.1 (not_lt.mpr h)
    · exact absurd hh.2 (not_le.mpr h)
  simp [App.SubmitOvertimeHandler, hn, hd, hp, upsertOvertime, hok, Store.record, encodeOK]

theorem filter_key_length_le_one {α κ : Type} [DecidableEq κ] (key : α → κ) (k : κ)
    (rows : List α) (h : (rows.map key).Nodup) :
    (rows.filter (fun a => decide (key a = k))).length ≤ 1 := by
  induction rows with
  | nil => simp
  | cons a rest ih =>
    rw [List.map_cons, List.nodup_cons] at h
    by_cases hk : key a = k
    · have hnone : rest.filter (fun x => decide (key x = k)) = [] := by
        rw [List.filter_eq_nil_iff]
        intro x hx
        simp only [decide_eq_true_eq]
        intro hxk
        exact h.1 (List.mem_map.mpr ⟨x, hx, hxk.trans hk.symm⟩)
      simp [List.filter_cons, hk, hnone]
    · simp only [List.filter_cons, hk, decide_False]
      exact ih h.2


/-- C7: from a store with at most one overtime record per (employee, date), two
accepted submissions of one employee for one date, first (h1, d1) then (h2, d2),
are both answered 200; the second adds no record, exactly one record of that
employee and date is stored, and it carries h2 and d2, not h1 + h2. -/
theorem submitOvertime_latest_wins (lib : Lib) (env1 env2 : Env) (r1 r2 : Request)
    (req1 req2 : SubmitOvertimeRequest) (st : Store) (date : Time) (pid1 pid2 : UUID)
    (hh1 : 0 < req1.HoursWorked ∧ req1.HoursWorked ≤ 3)
    (hh2 : 0 < req2.HoursWorked ∧ req2.HoursWorked ≤ 3)
    (hd1 : timeParse req1.OvertimeDate = some date)
    (hd2 : timeParse req2.OvertimeDate = some date)
    (hp1 : lib.uuidParse req1.AttendancePeriodID = some pid1)
    (hp2 : lib.uuidParse req2.AttendancePeriodID = some pid2)
    (hok1 : env1.db.ok = true) (hok2 : env2.db.ok = true)
    (hu : r2.user_id = r1.user_id)
    (hinv : (st.overtimes.map Overtime.key).Nodup) :
    (App.SubmitOvertimeHandler lib env1 r1 (some req1) st).1.code = StatusOK ∧
    (App.SubmitOvertimeHandler lib env2 r2 (some req2)
      (App.SubmitOvertimeHandler lib env1 r1 (some req1) st).2).1.code = StatusOK ∧
    (App.SubmitOvertimeHandler lib env2 r2 (some req2)
      (App.SubmitOvertimeHandler lib env1 r1 (some req1) st).2).2.overtimes.length =
      (App.SubmitOvertimeHandler lib env1 r1 (some req1) st).2.overtimes.length ∧
    ((App.SubmitOvertimeHandler lib env2 r2 (some req2)
      (App.SubmitOvertimeHandler lib env1 r1 (some req1) st).2).2.overtimes.filter
        (fun o => decide (o.key = (r1.user_id, date)))).length = 1 ∧
    ∀ o ∈ (App.SubmitOvertimeHandler lib env2 r2 (some req2)
        (App.SubmitOvertimeHandler lib env1 r1 (some req1) st).2).2.overtimes,
      o.UserID = r1.user_id → o.OvertimeDate = date →
        o.HoursWorked = req2.HoursWorked ∧ o.Description = req2.Description ∧
        o.HoursWorked ≠ req1.HoursWorked + req2.HoursWorked := by
  have h1 := submitOvertime_accepted lib env1 r1 req1 st date pid1 hh1 hd1 hp1 hok1
  have h2 := submitOvertime_accepted lib env2 r2 req2
    (App.SubmitOvertimeHandler lib env1 r1 (some req1) st).2 date pid2 hh2 hd2 hp2 hok2
  rw [hu] at h2
  have n1 := upsertOvertimeRows_nodup env1.db r1.user_id pid1 date req1.HoursWorked
    req1.Description (GetClientIP r1) r1.user_id st.overtimes hinv
  rw [← h1.2] at n1
  have n2 := upsertOvertimeRows_nodup env2.db r1.user_id pid2 date req2.HoursWorked
    req2.Description (GetClientIP r2) r1.user_id _ n1
  have ret1 := upsertOvertimeRows_returned env1.db r1.user_id pid1 date req1.HoursWorked
    req1.Description (GetClientIP r1) r1.user_id st.overtimes
  rw [← h1.2] at ret1
  have ret2 := upsertOvertimeRows_returned env2.db r1.user_id pid2 date req2.HoursWorked
    req2.Description (GetClientIP r2) r1.user_id
    (App.SubmitOvertimeHandler lib env1 r1 (some req1) st).2.overtimes
  have hmem : (r1.user_id, date) ∈
      (App.SubmitOvertimeHandler lib env1 r1 (some req1) st).2.overtimes.map Overtime.key :=
    List.mem_map.mpr ⟨_, ret1.1, ret1.2.1⟩
  have hkeys := upsertOvertimeRows_keys env2.db r1.user_id pid2 date req2.HoursWorked
    req2.Description (GetClientIP r2) r1.user_id
    (App.SubmitOvertimeHandler lib env1 r1 (some req1) st).2.overtimes
  rw [if_pos hmem] at hkeys
  rw [← h2.2] at n2 ret2 hkeys
  refine ⟨h1.1, h2.1, ?_, ?_, ?_⟩
  · have := congrArg List.length hkeys
    simpa using this
  · apply le_antisymm
    · exact filter_key_length_le_one Overtime.key _ _ n2
    · apply List.length_pos_of_mem (a := _)
      exact List.mem_filter.mpr ⟨ret2.1, by simpa using ret2.2.1⟩
  · intro o ho hou hod
    have hko : o.key = (upsertOvertimeRows env2.db r1.user_id pid2 date req2.HoursWorked
        req2.Description (GetClientIP r2) r1.user_id
        (App.SubmitOvertimeHandler lib env1 r1 (some req1) st).2.overtimes).1.key := by
      rw [ret2.2.1]
      simp [Overtime.key, hou, hod]
    have heq := List.inj_on_of_nodup_map n2 ho ret2.1 hko
    rw [heq]
    refine ⟨ret2.2.2.1, ret2.2.2.2, ?_⟩
    rw [ret2.2.2.1]
    intro hsum
    have := hh1.1
    linarith

/-- The instance of C7 on Monday 2024-01-08: 2 hours, then 1.5 hours. -/
theorem submitOvertime_latest_wins_witness :
    ((0 < (mondayOvertime 2 "release").HoursWorked ∧
        (mondayOvertime 2 "release").HoursWorked ≤ 3) ∧
      (0 < (mondayOvertime (3 / 2) "hotfix").HoursWorked ∧
        (mondayOvertime (3 / 2) "hotfix").HoursWorked ≤ 3) ∧
      timeParse (mondayOvertime 2 "release").OvertimeDate = some monday ∧
      sampleLib.uuidParse periodText = some period1 ∧
      (Store.empty.overtimes.map Overtime.key).Nodup) ∧
    (App.SubmitOvertimeHandler sampleLib sampleEnv sampleRequest
      (some (mondayOvertime 2 "release")) Store.empty).1.code = StatusOK ∧
    (App.SubmitOvertimeHandler sampleLib sampleEnvLater sampleRequest
      (some (mondayOvertime (3 / 2) "hotfix"))
      (App.SubmitOvertimeHandler sampleLib sampleEnv sampleRequest
        (some (mondayOvertime 2 "release")) Store.empty).2).1.code = StatusOK ∧
    (App.SubmitOvertimeHandler sampleLib sampleEnvLater sampleRequest
      (some (mondayOvertime (3 / 2) "hotfix"))
      (App.SubmitOvertimeHandler sampleLib sampleEnv sampleRequest
        (some (mondayOvertime 2 "release")) Store.empty).2).2.overtimes.length =
      (App.SubmitOvertimeHandler sampleLib sampleEnv sampleRequest
        (some (mondayOvertime 2 "release")) Store.empty).2.overtimes.length ∧
    ((App.SubmitOvertimeHandler sampleLib sampleEnvLater sampleRequest
      (some (mondayOvertime (3 / 2) "hotfix"))
      (App.SubmitOvertimeHandler sampleLib sampleEnv sampleRequest
        (some (mondayOvertime 2 "release")) Store.empty).2).2.overtimes.filter
        (fun o => decide (o.key = (sampleRequest.user_id, monday)))).length = 1 ∧
    ∀ o ∈ (App.SubmitOvertimeHandler sampleLib sampleEnvLater sampleRequest
        (some (mondayOvertime (3 / 2) "hotfix"))
        (App.SubmitOvertimeHandler sampleLib sampleEnv sampleRequest
          (some (mondayOvertime 2 "release")) Store.empty).2).2.overtimes,
      o.UserID = sampleRequest.user_id → o.OvertimeDate = monday →
        o.HoursWorked = (mondayOvertime (3 / 2) "hotfix").HoursWorked ∧
        o.Description = (mondayOvertime (3 / 2) "hotfix").Description ∧
        o.HoursWorked ≠ (mondayOvertime 2 "release").HoursWorked +
          (mondayOvertime (3 / 2) "hotfix").HoursWorked :=
  ⟨⟨by norm_num [mondayOvertime], by norm_num [mondayOvertime], by decide, by decide,
      by simp [Store.empty]⟩,
    submitOvertime_latest_wins sampleLib sampleEnv sampleEnvLater sampleRequest sampleRequest
      (mondayOvertime 2 "release") (mondayOvertime (3 / 2) "hotfix") Store.empty monday
      period1 period1 (by norm_num [mondayOvertime]) (by norm_num [mondayOvertime])
      (by decide) (by decide) (by decide) (by decide) rfl rfl rfl (by simp [Store.empty])⟩


/-! ### Sequences of submissions -/

theorem submitAttendance_effect (lib : Lib) (env : Env) (r : Request)
    (body : Option SubmitAttendanceRequest) (st : Store) :
    (App.SubmitAttendanceHandler lib env r body st).2.overtimes = st.overtimes ∧
    ((App.SubmitAttendanceHandler lib env r body st).2.attendances = st.attendances ∨
      ∃ pid date, IsWeekend date = false ∧
        (App.SubmitAttendanceHandler lib env r body st).2.attendances =
          (upsertAttendanceRows env.db r.user_id pid date env.now (GetClientIP r) r.user_id
            st.attendances).2) := by
  cases body with
  | none => exact ⟨rfl, Or.inl rfl⟩
  | some req =>
    cases hd : timeParse req.AttendanceDate with
    | none => simp [App.SubmitAttendanceHandler, hd]
    | some date =>
      cases hw : IsWeekend date with
      | true => simp [App.SubmitAttendanceHandler, hd, hw]
      | false =>
        cases hp : lib.uuidParse req.AttendancePeriodID with
        | none => simp [App.SubmitAttendanceHandler, hd, hw, hp]
        | some pid =>
          cases hok : env.db.ok with
          | false =>
            simp [App.SubmitAttendanceHandler, hd, hw, hp, upsertAttendance, hok, Store.record]
          | true =>
            refine ⟨?_, Or.inr ⟨pid, date, hw, ?_⟩⟩ <;>
              simp [App.SubmitAttendanceHandler, hd, hw, hp, upsertAttendance, hok,
                Store.record]

theorem submitOvertime_effect (lib : Lib) (env : Env) (r : Request)
    (body : Option SubmitOvertimeRequest) (st : Store) :
    (App.SubmitOvertimeHandler lib env r body st).2.attendances = st.attendances ∧
    ((App.SubmitOvertimeHandler lib env r body st).2.overtimes = st.overtimes ∨
      ∃ pid date hours desc,
        (App.SubmitOvertimeHandler lib env r body st).2.overtimes =
          (upsertOvertimeRows env.db r.user_id pid date hours desc (GetClientIP r) r.user_id
            st.overtimes).2) := by
  cases body with
  | none => exact ⟨rfl, Or.inl rfl⟩
  | some req =>
    by_cases hh : req.HoursWorked ≤ 0 ∨ req.HoursWorked > 3
    · simp [App.SubmitOvertimeHandler, hh]
    · cases hd : timeParse req.OvertimeDate with
      | none => simp [App.SubmitOvertimeHandler, hh, hd]
      | some date =>
        cases hp : lib.uuidParse req.AttendancePeriodID with
        | none => simp [App.SubmitOvertimeHandler, hh, hd, hp]
        | some pid =>
          cases hok : env.db.ok with
          | false =>
            simp [App.SubmitOvertimeHandler, hh, hd, hp, upsertOvertime, hok, Store.record]
          | true =>
            refine ⟨?_, Or.inr ⟨pid, date, req.HoursWorked, req.Description, ?_⟩⟩ <;>
              simp [App.SubmitOvertimeHandler, hh, hd, hp, upsertOvertime, hok, Store.record]

theorem apply_keys_nodup (lib : Lib) (s : Submission) (st : Store)
    (h : (st.attendances.map Attendance.key).Nodup ∧ (st.overtimes.map Overtime.key).Nodup) :
    ((s.apply lib st).attendances.map Attendance.key).Nodup ∧
    ((s.apply lib st).overtimes.map Overtime.key).Nodup := by
  cases s with
  | attendance env r body =>
    have e := submitAttendance_effect lib env r body st
    simp only [Submission.apply]
    rw [e.1]
    refine ⟨?_, h.2⟩
    rcases e.2 with h1 | ⟨pid, date, _, h1⟩
    · rw [h1]; exact h.1
    · rw [h1]; exact upsertAttendanceRows_nodup _ _ _ _ _ _ _ _ h.1
  | overtime env r body =>
    have e := submitOvertime_effect lib env r body st
    simp only [Submission.apply]
    rw [e.1]
    refine ⟨h.1, ?_⟩
    rcases e.2 with h1 | ⟨pid, date, hours, desc, h1⟩
    · rw [h1]; exact h.2
    · rw [h1]; exact upsertOvertimeRows_nodup _ _ _ _ _ _ _ _ _ h.2

theorem run_keys_nodup (lib : Lib) (subs : List Submission) (st : Store)
    (h : (st.attendances.map Attendance.key).Nodup ∧ (st.overtimes.map Overtime.key).Nodup) :
    ((runSubmissions lib subs st).attendances.map Attendance.key).Nodup ∧
    ((runSubmissions lib subs st).overtimes.map Overtime.key).Nodup := by
  induction subs generalizing st with
  | nil => exact h
  | cons s rest ih =>
    simp only [runSubmissions, List.foldl_cons]
    exact ih _ (apply_keys_nodup lib s st h)

/-- C8: starting from empty ledgers, after any sequence of calls of the attendance
and the overtime handler, handled one after the other, each (employee, date) has
at most one attendance record and at most one overtime record. -/
theorem ledger_unique (lib : Lib) (subs : List Submission) (st : Store)
    (ha : st.attendances = []) (ho : st.overtimes = []) (u : UUID) (d : Time) :
    ((runSubmissions lib subs st).attendances.filter
      (fun a => decide (a.key = (u, d)))).length ≤ 1 ∧
    ((runSubmissions lib subs st).overtimes.filter
      (fun o => decide (o.key = (u, d)))).length ≤ 1 := by
  have h := run_keys_nodup lib subs st (by simp [ha, ho])
  exact ⟨filter_key_length_le_one Attendance.key _ _ h.1,
    filter_key_length_le_one Overtime.key _ _ h.2⟩

/-- The instance of C8 for two punches and two overtime claims on one day. -/
theorem ledger_unique_witness :
    (Store.empty.attendances = [] ∧ Store.empty.overtimes = []) ∧
    ((runSubmissions sampleLib sampleDay Store.empty).attendances.filter
      (fun a => decide (a.key = (employee1, monday)))).length ≤ 1 ∧
    ((runSubmissions sampleLib sampleDay Store.empty).overtimes.filter
      (fun o => decide (o.key = (employee1, monday)))).length ≤ 1 :=
  ⟨⟨rfl, rfl⟩, ledger_unique sampleLib sampleDay Store.empty rfl rfl employee1 monday⟩


/-- C9, refuted: with January 2024 as the only period, an attendance for Tuesday
2024-03-05 that names this period is answered 200 and stored, although the end
of the period is before that date. -/
theorem attendance_outside_period_counterexample :
    (∃ p ∈ januaryStore.attendance_periods, p.ID = period1 ∧
      p.StartDate = ⟨1704067200, 0⟩ ∧ p.EndDate = ⟨1706659200, 0⟩) ∧
    sampleLib.uuidParse periodText = some period1 ∧
    timeParse "2024-03-05" = some ⟨1709596800, 0⟩ ∧
    (⟨1706659200, 0⟩ : Time).Before ⟨1709596800, 0⟩ = true ∧
    (App.SubmitAttendanceHandler sampleLib sampleEnv sampleRequest
      (some ⟨periodText, "2024-03-05"⟩) januaryStore).1.code = StatusOK ∧
    (App.SubmitAttendanceHandler sampleLib sampleEnv sampleRequest
      (some ⟨periodText, "2024-03-05"⟩) januaryStore).2.attendances =
      [{ ID := ⟨500⟩, UserID := employee1, AttendancePeriodID := period1,
         AttendanceDate := ⟨1709596800, 0⟩, CheckInTime := some morning,
         CheckOutTime := none, IsPresent := true, IPAddress := "10.0.0.7:51234",
         CreatedAt := morning, UpdatedAt := morning, CreatedBy := employee1,
         UpdatedBy := none }] := by
  refine ⟨⟨_, List.mem_singleton.mpr rfl, rfl, rfl, rfl⟩, by decide, by decide, by decide,
    by decide, ?_⟩
  rfl

theorem upsertAttendanceRows_dates (db : DbReply) (u p : UUID) (d now : Time) (ip : String)
    (c : UUID) (rows : List Attendance)
    (x : Attendance) (hx : x ∈ (upsertAttendanceRows db u p d now ip c rows).2) :
    x.AttendanceDate = d ∨ ∃ a ∈ rows, a.AttendanceDate = x.AttendanceDate := by
  have hk : x.key ∈ (upsertAttendanceRows db u p d now ip c rows).2.map Attendance.key :=
    List.mem_map.mpr ⟨x, hx, rfl⟩
  rw [upsertAttendanceRows_keys] at hk
  have hk2 : x.key ∈ rows.map Attendance.key ∨ x.key = (u, d) := by
    split at hk
    · exact Or.inl hk
    · rcases List.mem_append.mp hk with h | h
      · exact Or.inl h
      · exact Or.inr (List.mem_singleton.mp h)
  rcases hk2 with h | h
  · obtain ⟨a, ha, hak⟩ := List.mem_map.mp h
    right
    refine ⟨a, ha, ?_⟩
    simp only [Attendance.key, Prod.mk.injEq] at hak
    exact hak.2
  · left
    simp only [Attendance.key, Prod.mk.injEq] at h
    exact h.2

theorem apply_no_weekend (lib : Lib) (s : Submission) (st : Store)
    (h : ∀ a ∈ st.attendances, IsWeekend a.AttendanceDate = false) :
    ∀ a ∈ (s.apply lib st).attendances, IsWeekend a.AttendanceDate = false := by
  cases s with
  | attendance env r body =>
    have e := submitAttendance_effect lib env r body st
    simp only [Submission.apply]
    rcases e.2 with h1 | ⟨pid, date, hw, h1⟩
    · rw [h1]; exact h
    · rw [h1]
      intro a ha
      rcases upsertAttendanceRows_dates _ _ _ _ _ _ _ _ a ha with hd | ⟨b, hb, hbd⟩
      · rw [hd]; exact hw
      · rw [← hbd]; exact h b hb
  | overtime env r body =>
    have e := submitOvertime_effect lib env r body st
    simp only [Submission.apply]
    rw [e.1]
    exact h

theorem run_no_weekend (lib : Lib) (subs : List Submission) (st : Store)
    (h : ∀ a ∈ st.attendances, IsWeekend a.AttendanceDate = false) :
    ∀ a ∈ (runSubmissions lib subs st).attendances, IsWeekend a.AttendanceDate = false := by
  induction subs generalizing st with
  | nil => exact h
  | cons s rest ih =>
    simp only [runSubmissions, List.foldl_cons]
    exact ih _ (apply_no_weekend lib s st h)

/-- C9, amended: starting from an empty attendance ledger, after any sequence of
submissions every stored attendance record has a date that is not a Saturday or
a Sunday; and the attendance handler does not read the table of periods, so the
range of the period that a submission names has no part in the outcome. -/
theorem attendance_dates_no_weekend (lib : Lib) (subs : List Submission) (st : Store)
    (ha : st.attendances = []) :
    (∀ a ∈ (runSubmissions lib subs st).attendances,
      IsWeekend a.AttendanceDate = false ∧
      a.AttendanceDate.Weekday ≠ Saturday ∧ a.AttendanceDate.Weekday ≠ Sunday) ∧
    (∀ env r body (st1 : Store) (ps : List AttendancePeriod),
      App.SubmitAttendanceHandler lib env r body { st1 with attendance_periods := ps } =
        ((App.SubmitAttendanceHandler lib env r body st1).1,
          { (App.SubmitAttendanceHandler lib env r body st1).2 with
            attendance_periods := ps })) := by
  refine ⟨?_, fun env r body st1 ps => submitAttendance_periods lib env r body st1 ps⟩
  intro a hmem
  have h := run_no_weekend lib subs st (by simp [ha]) a hmem
  refine ⟨h, ?_, ?_⟩
  · intro hs
    have := (IsWeekend_iff a.AttendanceDate).2 (Or.inl hs)
    rw [h] at this
    cases this
  · intro hs
    have := (IsWeekend_iff a.AttendanceDate).2 (Or.inr hs)
    rw [h] at this
    cases this

/-- The instance of C9 for two punches and two overtime claims on one day. -/
theorem attendance_dates_no_weekend_witness :
    Store.empty.attendances = [] ∧
    ∀ a ∈ (runSubmissions sampleLib sampleDay Store.empty).attendances,
      IsWeekend a.AttendanceDate = false ∧
      a.AttendanceDate.Weekday ≠ Saturday ∧ a.AttendanceDate.Weekday ≠ Sunday :=
  ⟨rfl, (attendance_dates_no_weekend sampleLib sampleDay Store.empty rfl).1⟩


/-! ### The login response -/

theorem queryUser_rehash (db : DbReply) (username : String) (st : Store)
    (f : User → String) :
    (queryUser db username (rehash f st)).1 =
      (queryUser db username st).1.map (fun u => { u with PasswordHash := f u }) := by
  cases hok : db.ok with
  | false => simp [queryUser, hok]
  | true =>
    simp only [queryUser, hok, if_true, rehash, List.find?_map]
    rfl

theorem LoginHandler_same_body (app : App) (lib : Lib) (env : Env) (body : Option LoginRequest)
    (st : Store) (f : User → String)
    (h1 : (App.LoginHandler app lib env body st).1.code = StatusOK)
    (h2 : (App.LoginHandler app lib env body (rehash f st)).1.code = StatusOK) :
    (App.LoginHandler app lib env body (rehash f st)).1.body =
      (App.LoginHandler app lib env body st).1.body := by
  cases body with
  | none => simp [App.LoginHandler, httpError, StatusOK, StatusBadRequest] at h1
  | some req =>
    have hq := queryUser_rehash env.db req.Username st f
    unfold App.LoginHandler at h1 h2 ⊢
    simp only at h1 h2 ⊢
    rcases hq1 : queryUser env.db req.Username st with ⟨o1, s1⟩
    rcases hq2 : queryUser env.db req.Username (rehash f st) with ⟨o2, s2⟩
    rw [hq1, hq2] at hq
    simp only at hq
    rw [hq1] at h1
    rw [hq2] at h2
    subst hq
    cases o1 with
    | none => simp [httpError, StatusOK, StatusUnauthorized] at h1
    | some u =>
      simp only [Option.map_some'] at h2 ⊢
      cases hc1 : lib.checkPassword req.Password u.PasswordHash with
      | false => simp [hc1, httpError, StatusOK, StatusUnauthorized] at h1
      | true =>
        cases hc2 : lib.checkPassword req.Password (f u) with
        | false => simp [hc2, httpError, StatusOK, StatusUnauthorized] at h2
        | true =>
          cases hs : lib.signedString app.JWTSecret
              { UserID := u.ID, Username := u.Username, Role := u.Role,
                ExpiresAt := env.now.AddDay, IssuedAt := env.now } with
          | none => simp [hc1, hs, httpError, StatusOK, StatusInternalServerError] at h1
          | some tok => simp [hc1, hc2, hs, encodeOK, LoginResponse.toJSON, User.toJSON]

theorem GetByUsername_rehash (db : DbReply) (username : String) (st : Store)
    (f : User → String) :
    (userRepository.GetByUsername db username (rehash f st)).1 =
      match (userRepository.GetByUsername db username st).1 with
      | Except.error e => Except.error e
      | Except.ok u => Except.ok { u with PasswordHash := f u } := by
  have hq := queryUser_rehash db username st f
  unfold userRepository.GetByUsername
  rcases hq1 : queryUser db username st with ⟨o1, s1⟩
  rcases hq2 : queryUser db username (rehash f st) with ⟨o2, s2⟩
  rw [hq1, hq2] at hq
  simp only at hq
  subst hq
  cases o1 <;> rfl

theorem AuthService.Login_same_encoding (s : AuthService) (lib : Lib) (env : Env)
    (username password : String) (st : Store) (f : User → String)
    (r1 r2 : LoginResponse)
    (h1 : (s.Login lib env username password st).1 = Except.ok r1)
    (h2 : (s.Login lib env username password (rehash f st)).1 = Except.ok r2) :
    r2.toJSON = r1.toJSON := by
  have hq := GetByUsername_rehash env.db username st f
  unfold AuthService.Login at h1 h2
  rcases hq1 : userRepository.GetByUsername env.db username st with ⟨o1, s1⟩
  rcases hq2 : userRepository.GetByUsername env.db username (rehash f st) with ⟨o2, s2⟩
  rw [hq1, hq2] at hq
  simp only at hq
  rw [hq1] at h1
  rw [hq2] at h2
  subst hq
  cases o1 with
  | error e => simp at h1
  | ok u =>
    simp only at h1 h2
    cases hc1 : AuthService.checkPassword lib password u.PasswordHash with
    | false => simp [hc1] at h1
    | true =>
      cases hc2 : AuthService.checkPassword lib password (f u) with
      | false => simp [hc2] at h2
      | true =>
        simp only [hc1, hc2, Bool.not_true, Bool.false_eq_true, if_false] at h1 h2
        have hg : s.generateToken lib env { u with PasswordHash := f u } =
            s.generateToken lib env u := rfl
        rw [hg] at h2
        cases hs : s.generateToken lib env u with
        | error e => simp [hs] at h1
        | ok tok =>
          simp only [hs, Except.ok.injEq] at h1 h2
          subst h1
          subst h2
          rfl

theorem AuthService.Login_app_error (s : AuthService) (lib : Lib) (env : Env)
    (username password : String) (st : Store) (e : AppError)
    (h : (s.Login lib env username password st).1 = Except.error (GoError.app e)) :
    e = ErrInvalidCredentials := by
  unfold AuthService.Login userRepository.GetByUsername at h
  rcases hq : queryUser env.db username st with ⟨o, s1⟩
  rw [hq] at h
  cases o with
  | none => simp at h
  | some u =>
    simp only at h
    cases hc : AuthService.checkPassword lib password u.PasswordHash with
    | false =>
      simp only [hc, Bool.not_false, if_true, Except.error.injEq, GoError.app.injEq] at h
      exact h.symm
    | true =>
      simp only [hc, Bool.not_true, Bool.false_eq_true, if_false] at h
      unfold AuthService.generateToken at h
      simp only at h
      cases hs : lib.signedString s.jwtSecret
          { UserID := u.ID, Username := u.Username, Role := u.Role,
            ExpiresAt := env.now.AddDay, IssuedAt := env.now } with
      | none => simp [hs] at h
      | some tok => simp [hs] at h

theorem AuthHandler.Login_ok (h : AuthHandler) (lib : Lib) (env : Env)
    (body : Option LoginRequest) (st : Store)
    (h1 : (h.Login lib env body st).1.code = StatusOK) :
    ∃ req resp, body = some req ∧
      (h.authService.Login lib env req.Username req.Password st).1 = Except.ok resp ∧
      (h.Login lib env body st).1.body = Body.pkgJSON resp.toJSON := by
  cases body with
  | none => simp [AuthHandler.Login, responseError, StatusOK, StatusBadRequest] at h1
  | some req =>
    unfold AuthHandler.Login at h1 ⊢
    simp only at h1 ⊢
    by_cases he : req.Username = "" ∨ req.Password = ""
    · simp [he, responseError, StatusOK, StatusBadRequest] at h1
    · rw [if_neg he] at h1 ⊢
      rcases hl : h.authService.Login lib env req.Username req.Password st with ⟨o, s1⟩
      rw [hl] at h1
      cases o with
      | error e =>
        cases e with
        | app appErr =>
          have he2 := AuthService.Login_app_error h.authService lib env req.Username
            req.Password st appErr (by rw [hl])
          subst he2
          simp [responseError, StatusOK, ErrInvalidCredentials, NewAppError] at h1
        | other => simp [responseError, StatusOK, StatusInternalServerError] at h1
      | ok resp => exact ⟨req, resp, rfl, by rw [hl], rfl⟩

theorem AuthHandler.Login_same_body (h : AuthHandler) (lib : Lib) (env : Env)
    (body : Option LoginRequest) (st : Store) (f : User → String)
    (h1 : (h.Login lib env body st).1.code = StatusOK)
    (h2 : (h.Login lib env body (rehash f st)).1.code = StatusOK) :
    (h.Login lib env body (rehash f st)).1.body = (h.Login lib env body st).1.body := by
  obtain ⟨req1, resp1, hb1, hl1, hbody1⟩ := AuthHandler.Login_ok h lib env body st h1
  obtain ⟨req2, resp2, hb2, hl2, hbody2⟩ :=
    AuthHandler.Login_ok h lib env body (rehash f st) h2
  rw [hb1] at hb2
  cases hb2
  rw [hbody1, hbody2,
    AuthService.Login_same_encoding h.authService lib env req1.Username req1.Password st f
      resp1 resp2 hl1 hl2]

/-- C10: the encoding of a user does not depend on the password hash and has no
key for it, and so for the login response; two successful logins (through
`App.LoginHandler` and through `AuthHandler.Login`) against stores that differ
only in the password hashes have the same response body. -/
theorem password_hash_not_exposed :
    (∀ (u : User) (hash : String),
      ({ u with PasswordHash := hash } : User).toJSON = u.toJSON ∧
      u.toJSON.keys ⊆ ["id", "username", "role", "salary", "is_active", "created_at",
        "updated_at", "created_by", "updated_by"]) ∧
    (∀ (resp : LoginResponse) (hash : String),
      ({ resp with User := { resp.User with PasswordHash := hash } } : LoginResponse).toJSON =
        resp.toJSON) ∧
    (∀ (app : App) (lib : Lib) (env : Env) (body : Option LoginRequest) (st : Store)
      (f : User → String),
      (App.LoginHandler app lib env body st).1.code = StatusOK →
      (App.LoginHandler app lib env body (rehash f st)).1.code = StatusOK →
      (App.LoginHandler app lib env body (rehash f st)).1.body =
        (App.LoginHandler app lib env body st).1.body) ∧
    (∀ (h : AuthHandler) (lib : Lib) (env : Env) (body : Option LoginRequest) (st : Store)
      (f : User → String),
      (h.Login lib env body st).1.code = StatusOK →
      (h.Login lib env body (rehash f st)).1.code = StatusOK →
      (h.Login lib env body (rehash f st)).1.body = (h.Login lib env body st).1.body) := by
  refine ⟨fun u hash => ⟨rfl, ?_⟩, fun _ _ => rfl, LoginHandler_same_body,
    AuthHandler.Login_same_body⟩
  intro k hk
  cases hs : u.Salary <;> cases hc : u.CreatedBy <;> cases hu : u.UpdatedBy <;>
    simp [User.toJSON, JSON.keys, jsonField, jsonOmitNil, hs, hc, hu] at hk <;>
    simp only [List.mem_cons, List.mem_singleton, List.mem_nil_iff, or_false] <;>
    tauto

/-- The instance of C10 for one employee whose stored hash is replaced by the
hash of the same password under the other salt. -/
theorem password_hash_not_exposed_witness :
    ((App.LoginHandler sampleApp sampleLib sampleEnv (some aliceLogin) aliceStore).1.code =
        StatusOK ∧
      (App.LoginHandler sampleApp sampleLib sampleEnv (some aliceLogin)
        (rehash (fun _ => "b$secret") aliceStore)).1.code = StatusOK ∧
      (sampleAuthHandler.Login sampleLib sampleEnv (some aliceLogin) aliceStore).1.code =
        StatusOK ∧
      (sampleAuthHandler.Login sampleLib sampleEnv (some aliceLogin)
        (rehash (fun _ => "b$secret") aliceStore)).1.code = StatusOK) ∧
    (App.LoginHandler sampleApp sampleLib sampleEnv (some aliceLogin)
        (rehash (fun _ => "b$secret") aliceStore)).1.body =
      (App.LoginHandler sampleApp sampleLib sampleEnv (some aliceLogin) aliceStore).1.body ∧
    (sampleAuthHandler.Login sampleLib sampleEnv (some aliceLogin)
        (rehash (fun _ => "b$secret") aliceStore)).1.body =
      (sampleAuthHandler.Login sampleLib sampleEnv (some aliceLogin) aliceStore).1.body :=
  ⟨⟨by decide, by decide, by decide, by decide⟩,
    password_hash_not_exposed.2.2.1 sampleApp sampleLib sampleEnv (some aliceLogin) aliceStore
      (fun _ => "b$secret") (by decide) (by decide),
    password_hash_not_exposed.2.2.2 sampleAuthHandler sampleLib sampleEnv (some aliceLogin)
      aliceStore (fun _ => "b$secret") (by decide) (by decide)⟩


/-! ### The payroll computation engine -/

theorem getPeriod_some (st : Store) (id : UUID) (P : AttendancePeriod)
    (h : getPeriod st id = some P) : P ∈ st.attendance_periods ∧ P.ID = id := by
  unfold getPeriod at h
  exact ⟨List.mem_of_find?_eq_some h, by simpa using List.find?_some h⟩

theorem getPeriod_markProcessed (st : Store) (id actor : UUID) (now : Time)
    (P : AttendancePeriod) (h : getPeriod st id = some P) :
    getPeriod (markProcessed st id actor now) id =
      some { P with PayrollProcessed := true, PayrollProcessedAt := some now,
                    UpdatedAt := now, UpdatedBy := some actor } := by
  have hid := (getPeriod_some st id P h).2
  unfold getPeriod at h ⊢
  simp only [markProcessed, List.find?_map]
  have hfun : ((fun p : AttendancePeriod => decide (p.ID = id)) ∘
      (fun p : AttendancePeriod =>
        if p.ID = id then
          { p with PayrollProcessed := true, PayrollProcessedAt := some now,
                   UpdatedAt := now, UpdatedBy := some actor }
        else p)) = (fun p : AttendancePeriod => decide (p.ID = id)) := by
    funext p
    by_cases hp : p.ID = id <;> simp [hp]
  rw [hfun, h]
  simp [hid]

/-- C11: on a period that exists and is open, a first `computeAndClose` whose
commit completes returns the results and leaves the period processed (with the
timestamp of the call); a second call on the same period, whatever its
configuration, clock, actor and storage, fails with AlreadyProcessed and changes
nothing, so the payroll results are those left by the first call. -/
theorem computeAndClose_twice (cfg1 cfg2 : PayrollConfig) (now1 now2 : Time) (ok2 : Bool)
    (actor1 actor2 pid : UUID) (l : Ledger) (P : AttendancePeriod)
    (hP : getPeriod l.store pid = some P) (hopen : P.PayrollProcessed = false) :
    (computeAndClose cfg1 now1 true actor1 pid l).1 =
      Except.ok (computeResults cfg1 now1 l.store P) ∧
    (computeAndClose cfg1 now1 true actor1 pid l).2.payroll_results =
      l.payroll_results ++ computeResults cfg1 now1 l.store P ∧
    (∃ P1, getPeriod (computeAndClose cfg1 now1 true actor1 pid l).2.store pid = some P1 ∧
      P1.PayrollProcessed = true ∧ P1.PayrollProcessedAt = some now1) ∧
    computeAndClose cfg2 now2 ok2 actor2 pid (computeAndClose cfg1 now1 true actor1 pid l).2 =
      (Except.error PayrollError.AlreadyProcessed,
        (computeAndClose cfg1 now1 true actor1 pid l).2) ∧
    (computeAndClose cfg2 now2 ok2 actor2 pid
        (computeAndClose cfg1 now1 true actor1 pid l).2).2.payroll_results =
      (computeAndClose cfg1 now1 true actor1 pid l).2.payroll_results := by
  have hfirst : computeAndClose cfg1 now1 true actor1 pid l =
      (Except.ok (computeResults cfg1 now1 l.store P),
        { store := markProcessed l.store pid actor1 now1,
          payroll_results := l.payroll_results ++ computeResults cfg1 now1 l.store P }) := by
    simp [computeAndClose, hP, hopen]
  have hget := getPeriod_markProcessed l.store pid actor1 now1 P hP
  have hsecond : computeAndClose cfg2 now2 ok2 actor2 pid
      (computeAndClose cfg1 now1 true actor1 pid l).2 =
      (Except.error PayrollError.AlreadyProcessed,
        (computeAndClose cfg1 now1 true actor1 pid l).2) := by
    rw [hfirst]
    simp [computeAndClose, hget]
  refine ⟨by rw [hfirst], by rw [hfirst], ?_, hsecond, by rw [hsecond]⟩
  rw [hfirst]
  exact ⟨_, hget, rfl, rfl⟩

/-- The instance of C11 on the four-week period of the sample ledger. -/
theorem computeAndClose_twice_witness :
    (getPeriod payrollLedger.store period1 = some fourWeeks ∧
      fourWeeks.PayrollProcessed = false) ∧
    computeAndClose sampleConfig evening false employee1 period1
        (computeAndClose sampleConfig monthEnd true admin1 period1 payrollLedger).2 =
      (Except.error PayrollError.AlreadyProcessed,
        (computeAndClose sampleConfig monthEnd true admin1 period1 payrollLedger).2) :=
  ⟨⟨by decide, rfl⟩,
    (computeAndClose_twice sampleConfig sampleConfig monthEnd evening false admin1 employee1
      period1 payrollLedger fourWeeks (by decide) rfl).2.2.2.1⟩


theorem computeResult_mem (cfg : PayrollConfig) (now : Time) (st : Store)
    (P : AttendancePeriod) (u : User) (baseSalary : ℚ)
    (hu : u ∈ st.users) (hact : u.IsActive = true) (hsal : u.Salary = some baseSalary) :
    ({ employeeId := u.ID, periodId := P.ID, presentDays := presentDays st u.ID P.ID,
       workingDays := (workingDaySet P.StartDate P.EndDate).length,
       proratedBase := proratedBase baseSalary (presentDays st u.ID P.ID)
         (workingDaySet P.StartDate P.EndDate).length,
       overtimePay := overtimePay cfg st u.ID P.ID baseSalary,
       reimbursementTotal := reimbursementTotal st u.ID P.ID,
       totalPay := roundCurrency
         (proratedBase baseSalary (presentDays st u.ID P.ID)
            (workingDaySet P.StartDate P.EndDate).length +
          overtimePay cfg st u.ID P.ID baseSalary + reimbursementTotal st u.ID P.ID),
       computedAt := now } : PayrollResult) ∈ computeResults cfg now st P := by
  unfold computeResults
  rw [List.mem_filterMap]
  exact ⟨u, List.mem_filter.mpr ⟨hu, hact⟩, by simp [computeResult, hsal]⟩

/-- C12: when `computeAndClose` closes an open period whose working-day set is not
empty, the results hold, for every active employee with a base salary, a record
whose proratedBase is baseSalary * presentDays / |W|, presentDays being the number
of attendance records of the employee in the period that are marked present and
|W| the number of non-weekend dates of the period; with 20 working days, a base
salary of 2,000,000 and 18 present days the formula gives 1,800,000. -/
theorem proratedBase_in_results (cfg : PayrollConfig) (now : Time) (actor pid : UUID)
    (l : Ledger) (P : AttendancePeriod) (u : User) (baseSalary : ℚ)
    (hP : getPeriod l.store pid = some P) (hopen : P.PayrollProcessed = false)
    (hu : u ∈ l.store.users) (hact : u.IsActive = true) (hsal : u.Salary = some baseSalary)
    (hW : workingDaySet P.StartDate P.EndDate ≠ []) :
    (∃ res ∈ (computeAndClose cfg now true actor pid l).2.payroll_results,
      res.employeeId = u.ID ∧ res.periodId = pid ∧
      res.presentDays = (l.store.attendances.filter (fun a =>
        decide (a.UserID = u.ID ∧ a.AttendancePeriodID = pid) && a.IsPresent)).length ∧
      res.workingDays = (workingDaySet P.StartDate P.EndDate).length ∧
      0 < res.workingDays ∧
      res.proratedBase =
        baseSalary * (res.presentDays : ℚ) / (res.workingDays : ℚ)) ∧
    proratedBase 2000000 18 20 = 1800000 := by
  have hid := (getPeriod_some l.store pid P hP).2
  have hres : (computeAndClose cfg now true actor pid l).2.payroll_results =
      l.payroll_results ++ computeResults cfg now l.store P := by
    simp [computeAndClose, hP, hopen]
  have hmem := computeResult_mem cfg now l.store P u baseSalary hu hact hsal
  constructor
  · rw [hres]
    refine ⟨_, List.mem_append_right _ hmem, rfl, hid, ?_, rfl, List.length_pos.mpr hW, rfl⟩
    simp only [presentDays, hid]
  · norm_num [proratedBase]

/-- The instance of C12 on the sample ledger: 18 present days of 20 working days
at a base salary of 2,000,000. -/
theorem proratedBase_in_results_witness :
    (getPeriod payrollLedger.store period1 = some fourWeeks ∧
      fourWeeks.PayrollProcessed = false ∧ alice ∈ payrollLedger.store.users ∧
      alice.IsActive = true ∧ alice.Salary = some 2000000 ∧
      (workingDaySet fourWeeks.StartDate fourWeeks.EndDate).length = 20 ∧
      presentDays payrollLedger.store employee1 period1 = 18) ∧
    ∃ res ∈ (computeAndClose sampleConfig monthEnd true admin1 period1
        payrollLedger).2.payroll_results,
      res.employeeId = employee1 ∧ res.presentDays = 18 ∧ res.workingDays = 20 ∧
      res.proratedBase = 1800000 := by
  have hw : (workingDaySet fourWeeks.StartDate fourWeeks.EndDate).length = 20 := by decide
  have hp : presentDays payrollLedger.store employee1 period1 = 18 := by decide
  refine ⟨⟨by decide, rfl, List.mem_singleton.mpr rfl, rfl, rfl, hw, hp⟩, ?_⟩
  obtain ⟨⟨res, hmem, hemp, _, hpres, hwork, _, hbase⟩, _⟩ :=
    proratedBase_in_results sampleConfig monthEnd admin1 period1 payrollLedger fourWeeks alice
      2000000 (by decide) rfl (List.mem_singleton.mpr rfl) rfl rfl
      (by intro h; rw [h] at hw; cases hw)
  have hpres18 : res.presentDays = 18 := by rw [hpres]; exact hp
  have hwork20 : res.workingDays = 20 := by rw [hwork]; exact hw
  refine ⟨res, hmem, hemp, hpres18, hwork20, ?_⟩
  rw [hbase, hpres18, hwork20]
  norm_num


/-! ### The frame of a conflicting upsert -/

theorem upsertAttendanceRows_conflict (db : DbReply) (u p : UUID) (d now : Time)
    (ip : String) (c : UUID) (pre post : List Attendance) (a : Attendance)
    (hpre : ∀ x ∈ pre, ¬ (x.UserID = u ∧ x.AttendanceDate = d))
    (ha : a.UserID = u ∧ a.AttendanceDate = d) :
    (upsertAttendanceRows db u p d now ip c (pre ++ a :: post)).2 =
      pre ++ { a with CheckOutTime := some now, UpdatedAt := db.timestamp,
                      UpdatedBy := some c } :: post := by
  induction pre with
  | nil => simp [upsertAttendanceRows, ha]
  | cons x rest ih =>
    have hx := hpre x (List.mem_cons_self x rest)
    have hr : ∀ y ∈ rest, ¬ (y.UserID = u ∧ y.AttendanceDate = d) :=
      fun y hy => hpre y (List.mem_cons_of_mem x hy)
    have ih2 := ih hr
    simp only [List.cons_append, upsertAttendanceRows, hx, if_false]
    exact congrArg (List.cons x) ih2

theorem upsertOvertimeRows_conflict (db : DbReply) (u p : UUID) (d : Time) (hours : ℚ)
    (desc ip : String) (c : UUID) (pre post : List Overtime) (o : Overtime)
    (hpre : ∀ x ∈ pre, ¬ (x.UserID = u ∧ x.OvertimeDate = d))
    (ho : o.UserID = u ∧ o.OvertimeDate = d) :
    (upsertOvertimeRows db u p d hours desc ip c (pre ++ o :: post)).2 =
      pre ++ { o with HoursWorked := hours, Description := desc, UpdatedAt := db.timestamp,
                      UpdatedBy := some c } :: post := by
  induction pre with
  | nil => simp [upsertOvertimeRows, ho]
  | cons x rest ih =>
    have hx := hpre x (List.mem_cons_self x rest)
    have hr : ∀ y ∈ rest, ¬ (y.UserID = u ∧ y.OvertimeDate = d) :=
      fun y hy => hpre y (List.mem_cons_of_mem x hy)
    have ih2 := ih hr
    simp only [List.cons_append, upsertOvertimeRows, hx, if_false]
    exact congrArg (List.cons x) ih2

theorem submitAttendance_store (lib : Lib) (env : Env) (r : Request)
    (req : SubmitAttendanceRequest) (st : Store) (date : Time) (pid : UUID)
    (hd : timeParse req.AttendanceDate = some date) (hw : IsWeekend date = false)
    (hp : lib.uuidParse req.AttendancePeriodID = some pid) (hok : env.db.ok = true) :
    (App.SubmitAttendanceHandler lib env r (some req) st).2 =
      { st with
        attendances := (upsertAttendanceRows env.db r.user_id pid date env.now
          (GetClientIP r) r.user_id st.attendances).2,
        statements := st.statements ++ [Statement.upsertAttendance r.user_id pid date
          env.now (GetClientIP r) r.user_id] } := by
  simp [App.SubmitAttendanceHandler, hd, hw, hp, upsertAttendance, hok, Store.record]

theorem submitOvertime_store (lib : Lib) (env : Env) (r : Request)
    (req : SubmitOvertimeRequest) (st : Store) (date : Time) (pid : UUID)
    (hh : 0 < req.HoursWorked ∧ req.HoursWorked ≤ 3)
    (hd : timeParse req.OvertimeDate = some date)
    (hp : lib.uuidParse req.AttendancePeriodID = some pid) (hok : env.db.ok = true) :
    (App.SubmitOvertimeHandler lib env r (some req) st).2 =
      { st with
        overtimes := (upsertOvertimeRows env.db r.user_id pid date req.HoursWorked
          req.Description (GetClientIP r) r.user_id st.overtimes).2,
        statements := st.statements ++ [Statement.upsertOvertime r.user_id pid date
          req.HoursWorked req.Description (GetClientIP r) r.user_id] } := by
  have hn : ¬ (req.HoursWorked ≤ 0 ∨ req.HoursWorked > 3) := by
    rintro (h | h)
    · exact absurd hh.1 (not_lt.mpr h)
    · exact absurd hh.2 (not_le.mpr h)
  simp [App.SubmitOvertimeHandler, hn, hd, hp, upsertOvertime, hok, Store.record]

/-- C13: an accepted re-submission for an (employee, date) that is already stored
leaves the store as it was but for the log and for that one record, of which the
attendance upsert changes only check_out_time, updated_at and updated_by, and the
overtime upsert only hours_worked, description, updated_at and updated_by: id,
period id, address, creator, creation time (and check-in and presence) stay,
whatever period id and client address the re-submission carries. -/
theorem upsert_conflict_frame (lib : Lib) (env : Env) (r : Request) (st : Store)
    (date : Time) (pid : UUID) (hok : env.db.ok = true) :
    (∀ (req : SubmitAttendanceRequest) (pre post : List Attendance) (a : Attendance),
      timeParse req.AttendanceDate = some date → IsWeekend date = false →
      lib.uuidParse req.AttendancePeriodID = some pid →
      st.attendances = pre ++ a :: post →
      (∀ x ∈ pre, ¬ (x.UserID = r.user_id ∧ x.AttendanceDate = date)) →
      a.UserID = r.user_id → a.AttendanceDate = date →
      ∃ a1 : Attendance,
        (App.SubmitAttendanceHandler lib env r (some req) st).2 =
          { st with
            attendances := pre ++ a1 :: post,
            statements := st.statements ++ [Statement.upsertAttendance r.user_id pid date
              env.now (GetClientIP r) r.user_id] } ∧
        a1.ID = a.ID ∧ a1.UserID = a.UserID ∧
        a1.AttendancePeriodID = a.AttendancePeriodID ∧
        a1.AttendanceDate = a.AttendanceDate ∧ a1.CheckInTime = a.CheckInTime ∧
        a1.IsPresent = a.IsPresent ∧ a1.IPAddress = a.IPAddress ∧
        a1.CreatedAt = a.CreatedAt ∧ a1.CreatedBy = a.CreatedBy ∧
        a1.CheckOutTime = some env.now ∧ a1.UpdatedAt = env.db.timestamp ∧
        a1.UpdatedBy = some r.user_id) ∧
    (∀ (req : SubmitOvertimeRequest) (pre post : List Overtime) (o : Overtime),
      (0 < req.HoursWorked ∧ req.HoursWorked ≤ 3) →
      timeParse req.OvertimeDate = some date →
      lib.uuidParse req.AttendancePeriodID = some pid →
      st.overtimes = pre ++ o :: post →
      (∀ x ∈ pre, ¬ (x.UserID = r.user_id ∧ x.OvertimeDate = date)) →
      o.UserID = r.user_id → o.OvertimeDate = date →
      ∃ o1 : Overtime,
        (App.SubmitOvertimeHandler lib env r (some req) st).2 =
          { st with
            overtimes := pre ++ o1 :: post,
            statements := st.statements ++ [Statement.upsertOvertime r.user_id pid date
              req.HoursWorked req.Description (GetClientIP r) r.user_id] } ∧
        o1.ID = o.ID ∧ o1.UserID = o.UserID ∧
        o1.AttendancePeriodID = o.AttendancePeriodID ∧
        o1.OvertimeDate = o.OvertimeDate ∧ o1.IPAddress = o.IPAddress ∧
        o1.CreatedAt = o.CreatedAt ∧ o1.CreatedBy = o.CreatedBy ∧
        o1.HoursWorked = req.HoursWorked ∧ o1.Description = req.Description ∧
        o1.UpdatedAt = env.db.timestamp ∧ o1.UpdatedBy = some r.user_id) := by
  constructor
  · intro req pre post a hd hw hp hst hpre hu hdate
    refine ⟨{ a with CheckOutTime := some env.now, UpdatedAt := env.db.timestamp,
                     UpdatedBy := some r.user_id }, ?_, rfl, rfl, rfl, rfl, rfl, rfl, rfl,
      rfl, rfl, rfl, rfl, rfl⟩
    rw [submitAttendance_store lib env r req st date pid hd hw hp hok, hst,
      upsertAttendanceRows_conflict _ _ _ _ _ _ _ _ _ _ hpre ⟨hu, hdate⟩]
  · intro req pre post o hh hd hp hst hpre hu hdate
    refine ⟨{ o with HoursWorked := req.HoursWorked, Description := req.Description,
                     UpdatedAt := env.db.timestamp, UpdatedBy := some r.user_id }, ?_,
      rfl, rfl, rfl, rfl, rfl, rfl, rfl, rfl, rfl, rfl, rfl⟩
    rw [submitOvertime_store lib env r req st date pid hh hd hp hok, hst,
      upsertOvertimeRows_conflict _ _ _ _ _ _ _ _ _ _ _ hpre ⟨hu, hdate⟩]

/-- The instance of C13: the employee of the sample store submits again for Monday
2024-01-08, through a proxy and naming the other period. -/
theorem upsert_conflict_frame_witness :
    (sampleEnvLater.db.ok = true ∧ timeParse "2024-01-08" = some monday ∧
      IsWeekend monday = false ∧ sampleLibTwo.uuidParse period2Text = some period2 ∧
      GetClientIP proxiedRequest = "203.0.113.9" ∧
      punchedStore.attendances = [] ++ punch monday :: [] ∧
      punchedStore.overtimes = [] ++ mondayClaim :: []) ∧
    (∃ a1 : Attendance,
      (App.SubmitAttendanceHandler sampleLibTwo sampleEnvLater proxiedRequest
        (some ⟨period2Text, "2024-01-08"⟩) punchedStore).2 =
        { punchedStore with
          attendances := [] ++ a1 :: [],
          statements := punchedStore.statements ++ [Statement.upsertAttendance
            proxiedRequest.user_id period2 monday sampleEnvLater.now
            (GetClientIP proxiedRequest) proxiedRequest.user_id] } ∧
      a1.ID = (punch monday).ID ∧ a1.UserID = (punch monday).UserID ∧
      a1.AttendancePeriodID = (punch monday).AttendancePeriodID ∧
      a1.AttendanceDate = (punch monday).AttendanceDate ∧
      a1.CheckInTime = (punch monday).CheckInTime ∧
      a1.IsPresent = (punch monday).IsPresent ∧ a1.IPAddress = (punch monday).IPAddress ∧
      a1.CreatedAt = (punch monday).CreatedAt ∧ a1.CreatedBy = (punch monday).CreatedBy ∧
      a1.CheckOutTime = some sampleEnvLater.now ∧
      a1.UpdatedAt = sampleEnvLater.db.timestamp ∧
      a1.UpdatedBy = some proxiedRequest.user_id) ∧
    (∃ o1 : Overtime,
      (App.SubmitOvertimeHandler sampleLibTwo sampleEnvLater proxiedRequest
        (some ⟨period2Text, "2024-01-08", 3, "hotfix"⟩) punchedStore).2 =
        { punchedStore with
          overtimes := [] ++ o1 :: [],
          statements := punchedStore.statements ++ [Statement.upsertOvertime
            proxiedRequest.user_id period2 monday 3 "hotfix"
            (GetClientIP proxiedRequest) proxiedRequest.user_id] } ∧
      o1.ID = mondayClaim.ID ∧ o1.UserID = mondayClaim.UserID ∧
      o1.AttendancePeriodID = mondayClaim.AttendancePeriodID ∧
      o1.OvertimeDate = mondayClaim.OvertimeDate ∧ o1.IPAddress = mondayClaim.IPAddress ∧
      o1.CreatedAt = mondayClaim.CreatedAt ∧ o1.CreatedBy = mondayClaim.CreatedBy ∧
      o1.HoursWorked = 3 ∧ o1.Description = "hotfix" ∧
      o1.UpdatedAt = sampleEnvLater.db.timestamp ∧
      o1.UpdatedBy = some proxiedRequest.user_id) :=
  ⟨⟨rfl, by decide, by decide, by decide, by decide, rfl, rfl⟩,
    (upsert_conflict_frame sampleLibTwo sampleEnvLater proxiedRequest punchedStore monday
      period2 rfl).1 ⟨period2Text, "2024-01-08"⟩ [] [] (punch monday)
      (by decide) (by decide) (by decide) rfl (by simp) rfl rfl,
    (upsert_conflict_frame sampleLibTwo sampleEnvLater proxiedRequest punchedStore monday
      period2 rfl).2 ⟨period2Text, "2024-01-08", 3, "hotfix"⟩ [] [] mondayClaim
      (by norm_num) (by decide) (by decide) rfl (by simp) rfl rfl⟩


/-! ### The client address -/

theorem canonical_forwarded : CanonicalMIMEHeaderKey "X-Forwarded-For" = "X-Forwarded-For" := by
  decide

theorem canonical_real : CanonicalMIMEHeaderKey "X-Real-IP" = "X-Real-Ip" := by
  decide

/-- C14: `GetClientIP` is the value of X-Forwarded-For when that is not empty,
whatever X-Real-IP and RemoteAddr are; else the value of X-Real-IP when that is
not empty; else RemoteAddr. The value of a header is the first one stored under
its canonical key, as it stands, and is empty both for a header that is absent
and for one whose first value is empty. -/
theorem GetClientIP_precedence (r : Request) :
    (r.Header.Get "X-Forwarded-For" ≠ "" → GetClientIP r = r.Header.Get "X-Forwarded-For") ∧
    (r.Header.Get "X-Forwarded-For" = "" → r.Header.Get "X-Real-IP" ≠ "" →
      GetClientIP r = r.Header.Get "X-Real-IP") ∧
    (r.Header.Get "X-Forwarded-For" = "" → r.Header.Get "X-Real-IP" = "" →
      GetClientIP r = r.RemoteAddr) ∧
    (r.Header.Get "X-Forwarded-For" =
      match List.lookup "X-Forwarded-For" r.Header with
      | some (v :: _) => v
      | _ => "") ∧
    (r.Header.Get "X-Real-IP" =
      match List.lookup "X-Real-Ip" r.Header with
      | some (v :: _) => v
      | _ => "") := by
  refine ⟨?_, ?_, ?_, ?_, ?_⟩
  · intro h
    simp [GetClientIP, h]
  · intro h1 h2
    simp [GetClientIP, h1, h2]
  · intro h1 h2
    simp [GetClientIP, h1, h2]
  · simp only [Header.Get, canonical_forwarded]
  · simp only [Header.Get, canonical_real]

/-- The instances of C14: both headers set, the first header empty, no header. -/
theorem GetClientIP_precedence_witness :
    (proxiedRequest.Header.Get "X-Forwarded-For" ≠ "" ∧
      emptyForwardedRequest.Header.Get "X-Forwarded-For" = "" ∧
      emptyForwardedRequest.Header.Get "X-Real-IP" ≠ "" ∧
      sampleRequest.Header.Get "X-Forwarded-For" = "" ∧
      sampleRequest.Header.Get "X-Real-IP" = "") ∧
    GetClientIP proxiedRequest = proxiedRequest.Header.Get "X-Forwarded-For" ∧
    GetClientIP emptyForwardedRequest = emptyForwardedRequest.Header.Get "X-Real-IP" ∧
    GetClientIP sampleRequest = sampleRequest.RemoteAddr ∧
    proxiedRequest.Header.Get "X-Forwarded-For" = "203.0.113.9" ∧
    emptyForwardedRequest.Header.Get "X-Real-IP" = "198.51.100.4" :=
  ⟨⟨by decide, by decide, by decide, by decide, by decide⟩,
    (GetClientIP_precedence proxiedRequest).1 (by decide),
    (GetClientIP_precedence emptyForwardedRequest).2.1 (by decide) (by decide),
    (GetClientIP_precedence sampleRequest).2.2.1 (by decide) (by decide),
    by decide, by decide⟩


/-! ### The errors of the login -/

theorem GetByUsername_error (db : DbReply) (username : String) (st : Store) (e : GoError)
    (h : (userRepository.GetByUsername db username st).1 = Except.error e) :
    e = GoError.other := by
  unfold userRepository.GetByUsername at h
  rcases hq : queryUser db username st with ⟨o, s1⟩
  rw [hq] at h
  cases o with
  | none =>
    simp only [Except.error.injEq] at h
    exact h.symm
  | some u => simp at h

theorem GetByUsername_unknown (db : DbReply) (username : String) (st : Store)
    (h : ∀ u ∈ st.users, ¬ (u.Username = username ∧ u.IsActive = true)) :
    (userRepository.GetByUsername db username st).1 = Except.error GoError.other := by
  have hfind : st.users.find? (fun u => decide (u.Username = username) && u.IsActive) =
      none := by
    rw [List.find?_eq_none]
    intro u hu
    have := h u hu
    simpa using this
  cases hok : db.ok <;> simp [userRepository.GetByUsername, queryUser, hok, hfind]

theorem AuthHandler.Login_lookup_error (h : AuthHandler) (lib : Lib) (env : Env)
    (req : LoginRequest) (st : Store)
    (hu : req.Username ≠ "") (hp : req.Password ≠ "")
    (herr : (userRepository.GetByUsername env.db req.Username st).1 =
      Except.error GoError.other) :
    (h.Login lib env (some req) st).1 =
      responseError "Internal server error" StatusInternalServerError := by
  unfold AuthHandler.Login AuthService.Login
  rcases hq : userRepository.GetByUsername env.db req.Username st with ⟨o, s1⟩
  rw [hq] at herr
  simp only at herr
  subst herr
  simp [hq, hu, hp]

theorem AuthHandler.Login_unauthorized (h : AuthHandler) (lib : Lib) (env : Env)
    (req : LoginRequest) (st : Store)
    (hu : req.Username ≠ "") (hp : req.Password ≠ "") :
    (h.Login lib env (some req) st).1.code = StatusUnauthorized ↔
      ∃ u, (userRepository.GetByUsername env.db req.Username st).1 = Except.ok u ∧
        lib.checkPassword req.Password u.PasswordHash = false := by
  unfold AuthHandler.Login AuthService.Login
  rcases hq : userRepository.GetByUsername env.db req.Username st with ⟨o, s1⟩
  cases o with
  | error e =>
    have he := GetByUsername_error env.db req.Username st e (by rw [hq])
    subst he
    simp [hq, hu, hp, responseError, StatusUnauthorized, StatusInternalServerError]
  | ok u =>
    cases hc : lib.checkPassword req.Password u.PasswordHash with
    | false =>
      simp [hq, hu, hp, AuthService.checkPassword, hc, responseError,
        ErrInvalidCredentials, NewAppError, StatusUnauthorized]
    | true =>
      cases hs : lib.signedString h.authService.jwtSecret
          { UserID := u.ID, Username := u.Username, Role := u.Role,
            ExpiresAt := env.now.AddDay, IssuedAt := env.now } <;>
        simp [hq, hu, hp, AuthService.checkPassword, hc, AuthService.generateToken, hs,
          responseError, responseJSON, StatusUnauthorized, StatusInternalServerError,
          StatusOK]

theorem AuthHandler.Login_mismatch (h : AuthHandler) (lib : Lib) (env : Env)
    (req : LoginRequest) (st : Store) (u : User)
    (hu : req.Username ≠ "") (hp : req.Password ≠ "")
    (hfound : (userRepository.GetByUsername env.db req.Username st).1 = Except.ok u)
    (hc : lib.checkPassword req.Password u.PasswordHash = false) :
    (h.Login lib env (some req) st).1 =
      responseError "invalid credentials" StatusUnauthorized := by
  unfold AuthHandler.Login AuthService.Login
  rcases hq : userRepository.GetByUsername env.db req.Username st with ⟨o, s1⟩
  rw [hq] at hfound
  simp only at hfound
  subst hfound
  simp [hq, hu, hp, AuthService.checkPassword, hc, responseError, ErrInvalidCredentials,
    NewAppError, StatusUnauthorized]

/-- C15: `AuthHandler.Login` answers 400 and leaves the store untouched (no query
is sent) when the username or the password is empty. Otherwise a failed lookup,
as for a username that no active user has, is answered 500 "Internal server
error", and the answer is 401 exactly when a user is found and the password does
not match its hash, then with the message "invalid credentials". -/
theorem authLogin_errors (h : AuthHandler) (lib : Lib) (env : Env) (req : LoginRequest)
    (st : Store) :
    ((req.Username = "" ∨ req.Password = "") →
      h.Login lib env (some req) st =
        (responseError "Username and password are required" StatusBadRequest, st)) ∧
    (req.Username ≠ "" → req.Password ≠ "" →
      ((∀ u ∈ st.users, ¬ (u.Username = req.Username ∧ u.IsActive = true)) →
        (h.Login lib env (some req) st).1 =
          responseError "Internal server error" StatusInternalServerError) ∧
      (∀ e, (userRepository.GetByUsername env.db req.Username st).1 = Except.error e →
        (h.Login lib env (some req) st).1 =
          responseError "Internal server error" StatusInternalServerError) ∧
      ((h.Login lib env (some req) st).1.code = StatusUnauthorized ↔
        ∃ u, (userRepository.GetByUsername env.db req.Username st).1 = Except.ok u ∧
          lib.checkPassword req.Password u.PasswordHash = false) ∧
      ((h.Login lib env (some req) st).1.code = StatusUnauthorized →
        (h.Login lib env (some req) st).1 =
          responseError "invalid credentials" StatusUnauthorized)) := by
  constructor
  · intro hempty
    simp [AuthHandler.Login, hempty]
  · intro hu hp
    refine ⟨?_, ?_, AuthHandler.Login_unauthorized h lib env req st hu hp, ?_⟩
    · intro hunknown
      exact AuthHandler.Login_lookup_error h lib env req st hu hp
        (GetByUsername_unknown env.db req.Username st hunknown)
    · intro e he
      have := GetByUsername_error env.db req.Username st e he
      subst this
      exact AuthHandler.Login_lookup_error h lib env req st hu hp he
    · intro hcode
      obtain ⟨u, hfound, hc⟩ :=
        (AuthHandler.Login_unauthorized h lib env req st hu hp).1 hcode
      exact AuthHandler.Login_mismatch h lib env req st u hu hp hfound hc

/-- The instances of C15 on the store with the one user alice: an empty password,
an unknown username, and a wrong password. -/
theorem authLogin_errors_witness :
    ((⟨"alice", ""⟩ : LoginRequest).Password = "" ∧
      (∀ u ∈ aliceStore.users, ¬ (u.Username = "bob" ∧ u.IsActive = true)) ∧
      (userRepository.GetByUsername sampleEnv.db "alice" aliceStore).1 = Except.ok alice ∧
      sampleLib.checkPassword "guess" alice.PasswordHash = false) ∧
    sampleAuthHandler.Login sampleLib sampleEnv (some ⟨"alice", ""⟩) aliceStore =
      (responseError "Username and password are required" StatusBadRequest, aliceStore) ∧
    (sampleAuthHandler.Login sampleLib sampleEnv (some ⟨"bob", "secret"⟩) aliceStore).1 =
      responseError "Internal server error" StatusInternalServerError ∧
    (sampleAuthHandler.Login sampleLib sampleEnv (some ⟨"alice", "guess"⟩) aliceStore).1.code =
      StatusUnauthorized :=
  ⟨⟨rfl, by decide, rfl, by decide⟩,
    (authLogin_errors sampleAuthHandler sampleLib sampleEnv ⟨"alice", ""⟩ aliceStore).1
      (Or.inr rfl),
    ((authLogin_errors sampleAuthHandler sampleLib sampleEnv ⟨"bob", "secret"⟩ aliceStore).2
      (by decide) (by decide)).1 (by decide),
    ((authLogin_errors sampleAuthHandler sampleLib sampleEnv ⟨"alice", "guess"⟩ aliceStore).2
      (by decide) (by decide)).2.2.1.2 ⟨alice, rfl, by decide⟩⟩

end Payroll
